import Mathlib

/- Verification of the Predictive_Manager prediction-market contract.

   Shallow embedding of src/src/contract.rs and src/src/lib.rs.  Machine
   integers (u32, u64, u128) are modelled as Nat; the Linera Amount type
   (a u128 count of attos, 10^-18 tokens) keeps the saturating arithmetic
   of the source explicit.  BTreeMap and the storage MapView are modelled
   as association lists ordered by ascending key, matching the ascending
   iteration order of BTreeMap.  Storage (ViewError) failures and Rust
   panics are outside the model.  The module predictive_manager::state is
   not part of the repository snapshot; its types are reconstructed
   exactly from their uses in contract.rs and the data model of the spec. -/

/-- Upper bound of a u128, the saturation bound of the Linera Amount type. -/
def u128Max : Nat := 2 ^ 128 - 1

/-- An Amount is a u128 number of attos (10^-18 tokens). -/
abbrev Amount := Nat

/-- Amount.saturating_add from the Linera SDK. -/
def satAdd (a b : Amount) : Amount := min (a + b) u128Max

/-- Amount.saturating_sub (Nat subtraction already saturates at zero). -/
def satSub (a b : Amount) : Amount := a - b

/-- Amount.saturating_mul by a u128 scalar. -/
def satMul (a : Amount) (n : Nat) : Amount := min (a * n) u128Max

/-- Amount.saturating_div by another Amount, yielding a u128 scalar
(integer division; divisors in the source are never zero). -/
def satDiv (a b : Amount) : Nat := a / b

/-- Amount.from_tokens: one token is 10^18 attos. -/
def fromTokens (t : Nat) : Amount := min (t * 10 ^ 18) u128Max

/- Association maps with Nat keys, kept in ascending key order: the model
   of BTreeMap and of the storage MapView keyed by ids. -/

/-- Lookup in an association map (first matching key). -/
def mapGet {α : Type} : List (Nat × α) → Nat → Option α
  | [], _ => none
  | (k, v) :: rest, q => if q = k then some v else mapGet rest q

/-- Order-preserving insert-or-replace in an association map. -/
def mapInsert {α : Type} : List (Nat × α) → Nat → α → List (Nat × α)
  | [], k, v => [(k, v)]
  | (k0, v0) :: rest, k, v =>
    if k < k0 then (k, v) :: (k0, v0) :: rest
    else if k = k0 then (k, v) :: rest
    else (k0, v0) :: mapInsert rest k v

/-- Key-membership test in an association map. -/
def mapContains {α : Type} (m : List (Nat × α)) (k : Nat) : Bool :=
  (mapGet m k).isSome

/-- Removal of a key from an association map. -/
def mapRemove {α : Type} : List (Nat × α) → Nat → List (Nat × α)
  | [], _ => []
  | (k0, v0) :: rest, k => if k = k0 then rest else (k0, v0) :: mapRemove rest k

/-- In-place update of one index of a list, as a Rust index assignment on a
Vec; an out-of-range index leaves the list unchanged (the source would
panic there, which is outside the model). -/
def listUpdate {α : Type} (l : List α) (i : Nat) (f : α → α) : List α :=
  match l.get? i with
  | some o => l.set i (f o)
  | none => l

/- Data model, reconstructed from the uses in contract.rs. -/

/-- Market lifecycle status. -/
inductive MarketStatus where
  | Active
  | Closed
  | Resolved
  deriving DecidableEq, Repr

/-- Resolution strategy of a market. -/
inductive ResolutionMethod where
  | OracleVoting
  | Automated
  | CreatorDecides
  deriving DecidableEq, Repr

/-- Market type; only QuickPrediction is ever constructed by the contract. -/
inductive MarketType where
  | QuickPrediction
  deriving DecidableEq, Repr

/-- Game configuration, the fields read by contract.rs. -/
structure GameConfig where
  initial_player_tokens : Amount
  daily_login_reward : Amount
  market_creation_cost : Amount
  max_outcomes_per_market : Nat
  min_market_duration_seconds : Nat
  oracle_voting_duration_seconds : Nat
  admin : Option Nat
  deriving DecidableEq, Repr

/-- Requirement of an achievement. -/
inductive AchievementRequirement where
  | WinMarkets (count : Nat)
  | WinStreak (streak : Nat)
  | TotalProfit (profit : Amount)
  | ParticipateInMarkets (count : Nat)
  | CreateMarkets (count : Nat)
  | JoinGuild
  | ReachLevel (level : Nat)
  deriving DecidableEq, Repr

/-- An achievement of the catalog. -/
structure Achievement where
  id : Nat
  name : String
  description : String
  reward_tokens : Amount
  reward_xp : Nat
  requirement : AchievementRequirement
  deriving DecidableEq, Repr

/-- A registered player.  Identities are modelled as Nat. -/
structure Player where
  id : Nat
  display_name : Option String
  registration_time : Nat
  last_login : Nat
  token_balance : Amount
  total_earned : Amount
  total_spent : Amount
  level : Nat
  experience_points : Nat
  reputation : Nat
  markets_participated : Nat
  markets_won : Nat
  total_profit : Amount
  win_streak : Nat
  best_win_streak : Nat
  guild_id : Option Nat
  achievements_earned : List Nat
  active_markets : List Nat
  deriving DecidableEq, Repr

/-- One outcome of a market. -/
structure Outcome where
  id : Nat
  name : String
  total_shares : Amount
  current_price : Amount
  deriving DecidableEq, Repr

/-- A participant's position in one market. -/
structure PlayerPosition where
  shares_by_outcome : List (Nat × Amount)
  total_invested : Amount
  entry_time : Nat
  deriving DecidableEq, Repr

/-- A prediction market.  The f64 field smoothing_factor is represented
exactly in thousandths (the source only ever stores 1.5, compares it
against 1.0 and multiplies it by 1000.0 before a u128 cast, so the value
1500 reproduces every use without floating point). -/
structure Market where
  id : Nat
  creator : Nat
  title : String
  description : String
  market_type : MarketType
  outcomes : List Outcome
  creation_time : Nat
  end_time : Nat
  resolution_time : Option Nat
  status : MarketStatus
  total_liquidity : Amount
  positions : List (Nat × PlayerPosition)
  total_participants : Nat
  base_price : Amount
  smoothing_factor_mil : Nat
  winning_outcome : Option Nat
  resolution_method : ResolutionMethod
  deriving DecidableEq, Repr

/-- Accumulated votes for one outcome. -/
structure WeightedVotes where
  total_weight : Nat
  voter_count : Nat
  deriving DecidableEq, Repr

/-- Oracle-voting record of one market. -/
structure OracleVoting where
  market_id : Nat
  voting_start : Nat
  voting_end : Nat
  votes : List (Nat × WeightedVotes)
  voters : List Nat
  resolved : Bool
  deriving DecidableEq, Repr

/-- A guild. -/
structure Guild where
  id : Nat
  name : String
  founder : Nat
  members : List Nat
  creation_time : Nat
  total_guild_profit : Amount
  guild_level : Nat
  shared_pool : Amount
  deriving DecidableEq, Repr

/-- Leaderboard entry of a trader.  The f64 win_rate is represented
exactly by the pair (markets_won, markets_participated) it is computed
from, or (0, 0) when the player participated in no market. -/
structure LeaderboardEntry where
  player_id : Nat
  display_name : Option String
  total_profit : Amount
  win_rate_pair : Nat × Nat
  level : Nat
  deriving DecidableEq, Repr

/-- Leaderboard entry of a guild. -/
structure GuildLeaderboardEntry where
  guild_id : Nat
  name : String
  total_profit : Amount
  member_count : Nat
  deriving DecidableEq, Repr

/-- The leaderboard singleton. -/
structure Leaderboard where
  top_traders : List LeaderboardEntry
  top_guilds : List GuildLeaderboardEntry
  last_updated : Nat
  deriving DecidableEq, Repr

/-- Cross-context messages prepared by the contract. -/
inductive Message where
  | MarketCreated (market_id creator : Nat)
  | MarketResolved (market_id winning_outcome : Nat)
  | TradeExecuted (player_id market_id outcome_id : Nat) (shares price : Amount)
  | PlayerLeveledUp (player_id new_level : Nat)
  | AchievementUnlocked (player_id achievement_id : Nat)
  | GuildCreated (guild_id : Nat) (name : String)
  deriving DecidableEq, Repr

/-- The error enum of contract.rs (storage ViewError pass-through is
outside the model). -/
inductive ContractError where
  | Unauthorized
  | PlayerAlreadyExists
  | DailyRewardAlreadyClaimed
  | InvalidOutcomeCount
  | DurationTooShort
  | InsufficientBalance
  | MarketNotActive
  | MarketEnded
  | InvalidOutcome
  | SlippageExceeded
  | NoPosition
  | InsufficientShares
  | MarketNotReadyForVoting
  | InvalidResolutionMethod
  | AlreadyVoted
  | MarketNotEnded
  | PlayerNotFound
  | MarketNotFound
  | GuildNotFound
  | AlreadyInGuild
  | NotGuildMember
  | NotAdmin
  | OracleNotReady
  | NotResolved
  | NoWinnings
  deriving DecidableEq, Repr

/-- The whole contract state (PredictionMarketState of the state module). -/
structure PredictionMarketState where
  config : GameConfig
  total_supply : Amount
  next_market_id : Nat
  players : List (Nat × Player)
  markets : List (Nat × Market)
  oracle_votes : List (Nat × OracleVoting)
  guilds : List (Nat × Guild)
  achievements : List (Nat × Achievement)
  leaderboard : Leaderboard
  deriving DecidableEq, Repr

/-- The operation enum of lib.rs. -/
inductive Operation where
  | RegisterPlayer (display_name : Option String)
  | UpdateProfile (display_name : Option String)
  | ClaimDailyReward
  | CreateMarket (title description : String) (outcome_names : List String)
      (duration_seconds : Nat) (resolution_method : ResolutionMethod)
  | BuyShares (market_id outcome_id : Nat) (amount max_price_per_share : Amount)
  | SellShares (market_id outcome_id : Nat) (shares min_price_per_share : Amount)
  | VoteOnOutcome (market_id outcome_id : Nat)
  | TriggerResolution (market_id : Nat)
  | ClaimWinnings (market_id : Nat)
  | CreateGuild (name : String)
  | JoinGuild (guild_id : Nat)
  | LeaveGuild
  | ContributeToGuild (amount : Amount)
  | UpdateGameConfig (config : GameConfig)
  deriving DecidableEq, Repr

/-- Outcome of running one contract method: the persisted state (mutations
the method had already written survive an error return, exactly as writes
to self.state survive an early return in the source), the messages
prepared for sending, and the method's Result. -/
structure OpOut where
  state : PredictionMarketState
  msgs : List Message
  result : Except ContractError Unit

instance {ε α : Type} [DecidableEq ε] [DecidableEq α] :
    DecidableEq (Except ε α) := fun a b =>
  match a, b with
  | .ok x, .ok y =>
    if h : x = y then isTrue (by rw [h])
    else isFalse (by intro hc; cases hc; exact h rfl)
  | .error e, .error f =>
    if h : e = f then isTrue (by rw [h])
    else isFalse (by intro hc; cases hc; exact h rfl)
  | .ok _, .error _ => isFalse (by intro hc; cases hc)
  | .error _, .ok _ => isFalse (by intro hc; cases hc)

instance : DecidableEq OpOut := fun a b =>
  match a, b with
  | ⟨s1, m1, r1⟩, ⟨s2, m2, r2⟩ =>
    if h : s1 = s2 ∧ m1 = m2 ∧ r1 = r2 then
      isTrue (by obtain ⟨h1, h2, h3⟩ := h; rw [h1, h2, h3])
    else
      isFalse (by intro hc; cases hc; exact h ⟨rfl, rfl, rfl⟩)

/-- Error return leaving the state as it stands. -/
def errOut (s : PredictionMarketState) (e : ContractError) : OpOut := ⟨s, [], .error e⟩

/- Pure pricing helpers (PricingEngine). -/

/-- calculate_shares_for_amount from contract.rs: despite the documented
AMM formula, every branch issues shares 1:1 with the invested amount. -/
def calculate_shares_for_amount (market : Market) (outcome_id : Nat)
    (amount : Amount) : Except ContractError Amount :=
  if market.outcomes.length ≤ outcome_id then .error .InvalidOutcome
  else
    let total_supply := market.total_liquidity
    if total_supply = 0 then .ok amount
    else
      let base_price := market.base_price
      let price_ratio := if 0 < total_supply then fromTokens 1 else fromTokens 1
      let _adjusted_ratio :=
        if 1000 < market.smoothing_factor_mil then
          satMul price_ratio market.smoothing_factor_mil
        else price_ratio
      let price_per_share := base_price
      if 0 < price_per_share then .ok amount else .ok amount

/-- calculate_current_price from contract.rs: the simplified computation
returns the base price, floored at the base price. -/
def calculate_current_price (market : Market) (outcome_id : Nat) :
    Except ContractError Amount :=
  if market.outcomes.length ≤ outcome_id then .error .InvalidOutcome
  else
    let total_supply := market.total_liquidity
    if total_supply = 0 then .ok market.base_price
    else
      let base_price := market.base_price
      let price_ratio := if 0 < total_supply then fromTokens 1 else fromTokens 1
      let _adjusted_ratio :=
        if 1000 < market.smoothing_factor_mil then
          satMul price_ratio market.smoothing_factor_mil
        else price_ratio
      let price_per_share := base_price
      .ok (max price_per_share market.base_price)

/-- calculate_sell_value from contract.rs: 1:1, shares for tokens. -/
def calculate_sell_value (_market : Market) (_outcome_id : Nat)
    (shares : Amount) : Except ContractError Amount :=
  .ok shares

/- Player progression helpers. -/

/-- The while loop of add_experience, written with structural recursion
on a fuel counter so that the kernel can evaluate it; the fuel xp + 2
always exceeds the iteration count (each pass with a positive level burns
at least 100 experience points, and a zero level becomes positive after
one pass), which the fuel-irrelevance theorem below makes precise. -/
def levelLoopF : Nat → Nat → Nat → Nat × Nat
  | 0, xp, level => (xp, level)
  | fuel + 1, xp, level =>
    if level * 100 ≤ xp then levelLoopF fuel (xp - level * 100) (level + 1)
    else (xp, level)

/-- The level-up loop of add_experience. -/
def levelLoop (xp level : Nat) : Nat × Nat := levelLoopF (xp + 2) xp level

/-- Any two sufficient fuels give the same loop result (positive level). -/
theorem levelLoopF_fuel_eq (xp : Nat) : ∀ f g level, 1 ≤ level →
    xp + 1 ≤ f → xp + 1 ≤ g → levelLoopF f xp level = levelLoopF g xp level := by
  induction xp using Nat.strong_induction_on with
  | _ xp ih =>
    intro f g level hl hf hg
    obtain ⟨f1, rfl⟩ : ∃ f1, f = f1 + 1 := ⟨f - 1, by omega⟩
    obtain ⟨g1, rfl⟩ : ∃ g1, g = g1 + 1 := ⟨g - 1, by omega⟩
    show levelLoopF (f1 + 1) xp level = levelLoopF (g1 + 1) xp level
    unfold levelLoopF
    by_cases hc : level * 100 ≤ xp
    · simp only [if_pos hc]
      have hxp : xp - level * 100 < xp := by
        have : 100 ≤ level * 100 := by omega
        omega
      exact ih _ hxp f1 g1 (level + 1) (by omega) (by omega) (by omega)
    · simp only [if_neg hc]

/-- The fuel used by levelLoop is never exhausted: any fuel of at least
xp + 2 computes the same result, so levelLoopF (xp + 2) is the exact
semantics of the source's unbounded while loop. -/
theorem levelLoop_fuel_free (f xp level : Nat) (hf : xp + 2 ≤ f) :
    levelLoopF f xp level = levelLoop xp level := by
  unfold levelLoop
  cases level with
  | zero =>
    obtain ⟨f1, rfl⟩ : ∃ f1, f = f1 + 1 := ⟨f - 1, by omega⟩
    show levelLoopF (f1 + 1) xp 0 = levelLoopF (xp + 2) xp 0
    unfold levelLoopF
    simp only [Nat.zero_mul, Nat.zero_le, if_pos, Nat.sub_zero]
    exact levelLoopF_fuel_eq xp f1 (xp + 1) 1 (by omega) (by omega) (by omega)
  | succ l =>
    exact levelLoopF_fuel_eq xp f (xp + 2) (l + 1) (by omega) (by omega) (by omega)

/-- Number of markets in the player's active list that this player
created (the CreateMarkets achievement check). -/
def marketsCreatedCount (s : PredictionMarketState) (p : Player) : Nat :=
  p.active_markets.foldl (fun acc mid =>
    match mapGet s.markets mid with
    | some m => if m.creator = p.id then acc + 1 else acc
    | none => acc) 0

/-- check_achievement_requirement from contract.rs. -/
def check_achievement_requirement (s : PredictionMarketState) (p : Player) :
    AchievementRequirement → Bool
  | .WinMarkets count => count ≤ p.markets_won
  | .WinStreak streak => streak ≤ p.win_streak
  | .TotalProfit profit => profit ≤ p.total_profit
  | .ParticipateInMarkets count => count ≤ p.markets_participated
  | .CreateMarkets count => count ≤ marketsCreatedCount s p
  | .JoinGuild => p.guild_id.isSome
  | .ReachLevel level => level ≤ p.level

/-- One step of the achievement loop of check_achievements: the evolving
player, the messages prepared so far and the list of new achievements. -/
def applyAchievement (s : PredictionMarketState)
    (pm : Player × List Message × List Nat) (aid : Nat) :
    Player × List Message × List Nat :=
  match mapGet s.achievements aid with
  | none => pm
  | some a =>
    let p := pm.1
    if aid ∈ p.achievements_earned then pm
    else if check_achievement_requirement s p a.requirement then
      let p2 : Player := { p with
        achievements_earned := p.achievements_earned ++ [aid],
        token_balance := satAdd p.token_balance a.reward_tokens,
        total_earned := satAdd p.total_earned a.reward_tokens,
        experience_points := p.experience_points + a.reward_xp }
      (p2, pm.2.1 ++ [Message.AchievementUnlocked p.id aid], pm.2.2 ++ [aid])
    else pm

/-- check_achievements from contract.rs: loops over achievement ids 1..=7,
awards the earned ones, and persists the player only when something new
was awarded. -/
def check_achievements (s : PredictionMarketState) (p : Player) :
    PredictionMarketState × Player × List Message :=
  let r := [1, 2, 3, 4, 5, 6, 7].foldl (applyAchievement s) (p, [], [])
  if r.2.2.isEmpty then (s, r.1, r.2.1)
  else ({ s with players := mapInsert s.players r.1.id r.1 }, r.1, r.2.1)

/-- add_experience from contract.rs. -/
def add_experience (s : PredictionMarketState) (p : Player) (xp : Nat) :
    PredictionMarketState × Player × List Message :=
  let p1 : Player := { p with experience_points := p.experience_points + xp }
  let old_level := p1.level
  let lp := levelLoop p1.experience_points p1.level
  let p2 : Player := { p1 with experience_points := lp.1, level := lp.2 }
  if old_level < p2.level then check_achievements s p2 else (s, p2, [])

/- Leaderboard. -/

/-- The exact pair behind the f64 win rate of a leaderboard entry. -/
def winRatePair (p : Player) : Nat × Nat :=
  if 0 < p.markets_participated then (p.markets_won, p.markets_participated)
  else (0, 0)

/-- update_enhanced_leaderboard from contract.rs.  Every enhanced score is
the constant 100.0 and Vec sort_by is stable, so the sort leaves the
ascending-key iteration order of the maps unchanged and the function
keeps the first 50 players and first 20 guilds. -/
def update_enhanced_leaderboard (s : PredictionMarketState)
    (current_time : Nat) : PredictionMarketState :=
  let top_traders := (s.players.take 50).map (fun kv =>
    { player_id := kv.1, display_name := kv.2.display_name,
      total_profit := kv.2.total_profit, win_rate_pair := winRatePair kv.2,
      level := kv.2.level : LeaderboardEntry })
  let top_guilds := (s.guilds.take 20).map (fun kv =>
    { guild_id := kv.1, name := kv.2.name,
      total_profit := kv.2.total_guild_profit,
      member_count := kv.2.members.length : GuildLeaderboardEntry })
  { s with leaderboard :=
      { top_traders := top_traders, top_guilds := top_guilds,
        last_updated := current_time } }

/- Fee distribution. -/

/-- distribute_market_creator_fee from contract.rs.  The leaderboard
update at its end reads the block timestamp, passed in as current_time. -/
def distribute_market_creator_fee (s : PredictionMarketState) (creator : Nat)
    (total_fee : Amount) (current_time : Nat) :
    Except ContractError PredictionMarketState :=
  let creator_fee_amount := satDiv (satMul total_fee 2) (fromTokens 100)
  let platform_fee_amount := satDiv (satMul total_fee 1) (fromTokens 100)
  match (if 0 < creator_fee_amount then
          match mapGet s.players creator with
          | none => Except.error ContractError.PlayerNotFound
          | some cp =>
            let cp2 : Player := { cp with
              token_balance := satAdd cp.token_balance (fromTokens creator_fee_amount),
              total_earned := satAdd cp.total_earned (fromTokens creator_fee_amount) }
            Except.ok { s with players := mapInsert s.players creator cp2 }
        else Except.ok s) with
  | .error e => .error e
  | .ok s1 =>
    let s2 := if 0 < platform_fee_amount then
        { s1 with total_supply := satAdd s1.total_supply (fromTokens platform_fee_amount) }
      else s1
    .ok (update_enhanced_leaderboard s2 current_time)

/-- distribute_trading_fees from contract.rs. -/
def distribute_trading_fees (s : PredictionMarketState) (market_id : Nat)
    (trade_amount : Amount) : Except ContractError PredictionMarketState :=
  match mapGet s.markets market_id with
  | none => .error .MarketNotFound
  | some market =>
    let trading_fee := satDiv (satMul trade_amount 1) (fromTokens 200)
    if 0 < trading_fee then
      let creator_share := trading_fee / fromTokens 2
      let platform_share := trading_fee - creator_share
      match mapGet s.players market.creator with
      | none => .error .PlayerNotFound
      | some cp =>
        let cp2 : Player := { cp with
          token_balance := satAdd cp.token_balance (fromTokens creator_share),
          total_earned := satAdd cp.total_earned (fromTokens creator_share) }
        let s1 := { s with players := mapInsert s.players market.creator cp2 }
        .ok { s1 with total_supply := satAdd s1.total_supply (fromTokens platform_share) }
    else .ok s

/- Contract operations.  Each returns an OpOut whose state component holds
   exactly the storage writes performed before the method returned. -/

/-- register_player from contract.rs. -/
def register_player (s : PredictionMarketState) (player_id : Nat)
    (display_name : Option String) (current_time : Nat) : OpOut :=
  if mapContains s.players player_id then errOut s .PlayerAlreadyExists
  else
    let initial_tokens := s.config.initial_player_tokens
    let player : Player :=
      { id := player_id, display_name := display_name,
        registration_time := current_time, last_login := current_time,
        token_balance := initial_tokens, total_earned := initial_tokens,
        total_spent := 0, level := 1, experience_points := 0,
        reputation := 100, markets_participated := 0, markets_won := 0,
        total_profit := 0, win_streak := 0, best_win_streak := 0,
        guild_id := none, achievements_earned := [], active_markets := [] }
    let s1 := { s with players := mapInsert s.players player_id player }
    let s2 := { s1 with total_supply := satAdd s1.total_supply initial_tokens }
    ⟨s2, [], .ok ()⟩

/-- update_player_profile from contract.rs. -/
def update_player_profile (s : PredictionMarketState) (player_id : Nat)
    (display_name : Option String) : OpOut :=
  match mapGet s.players player_id with
  | none => errOut s .PlayerNotFound
  | some p =>
    let p2 : Player := { p with display_name := display_name }
    ⟨{ s with players := mapInsert s.players player_id p2 }, [], .ok ()⟩

/-- claim_daily_reward from contract.rs. -/
def claim_daily_reward (s : PredictionMarketState) (player_id : Nat)
    (current_time : Nat) : OpOut :=
  match mapGet s.players player_id with
  | none => errOut s .PlayerNotFound
  | some p =>
    let time_diff := current_time - p.last_login
    let one_day_micros := 24 * 60 * 60 * 1000000
    if time_diff < one_day_micros then errOut s .DailyRewardAlreadyClaimed
    else
      let reward := s.config.daily_login_reward
      let p2 : Player := { p with
        token_balance := satAdd p.token_balance reward,
        total_earned := satAdd p.total_earned reward,
        last_login := current_time }
      let s1 := { s with players := mapInsert s.players player_id p2 }
      let s2 := { s1 with total_supply := satAdd s1.total_supply reward }
      ⟨s2, [], .ok ()⟩

/-- create_market from contract.rs. -/
def create_market (s : PredictionMarketState) (creator : Nat)
    (title description : String) (market_type : MarketType)
    (outcome_names : List String) (duration_seconds : Nat)
    (resolution_method : ResolutionMethod) (current_time : Nat) : OpOut :=
  let market_creation_cost := s.config.market_creation_cost
  match mapGet s.players creator with
  | none => errOut s .PlayerNotFound
  | some player =>
    if outcome_names.length < 2 ∨
        s.config.max_outcomes_per_market < outcome_names.length then
      errOut s .InvalidOutcomeCount
    else if duration_seconds < s.config.min_market_duration_seconds then
      errOut s .DurationTooShort
    else if player.token_balance < market_creation_cost then
      errOut s .InsufficientBalance
    else
      let player2 : Player := { player with
        token_balance := satSub player.token_balance market_creation_cost,
        total_spent := satAdd player.total_spent market_creation_cost }
      let market_id := s.next_market_id
      let s1 := { s with next_market_id := market_id + 1 }
      let outcomes := outcome_names.enum.map (fun ni =>
        { id := ni.1, name := ni.2, total_shares := 0,
          current_price := fromTokens 1 : Outcome })
      let end_time := current_time + duration_seconds * 1000000
      let market : Market :=
        { id := market_id, creator := creator, title := title,
          description := description, market_type := market_type,
          outcomes := outcomes, creation_time := current_time,
          end_time := end_time, resolution_time := none, status := .Active,
          total_liquidity := 0, positions := [], total_participants := 0,
          base_price := fromTokens 1, smoothing_factor_mil := 1500,
          winning_outcome := none, resolution_method := resolution_method }
      let s2 := { s1 with markets := mapInsert s1.markets market_id market }
      let s3 := { s2 with players := mapInsert s2.players creator player2 }
      match distribute_market_creator_fee s3 creator market_creation_cost current_time with
      | .error e => ⟨s3, [], .error e⟩
      | .ok s4 => ⟨s4, [Message.MarketCreated market_id creator], .ok ()⟩

/-- buy_shares from contract.rs. -/
def buy_shares (s : PredictionMarketState) (player_id market_id outcome_id : Nat)
    (amount max_price_per_share : Amount) (current_time : Nat) : OpOut :=
  match mapGet s.markets market_id with
  | none => errOut s .MarketNotFound
  | some market =>
    match mapGet s.players player_id with
    | none => errOut s .PlayerNotFound
    | some player =>
      if market.status ≠ .Active then errOut s .MarketNotActive
      else if market.end_time ≤ current_time then errOut s .MarketEnded
      else if market.outcomes.length ≤ outcome_id then errOut s .InvalidOutcome
      else if player.token_balance < amount then errOut s .InsufficientBalance
      else
        match calculate_shares_for_amount market outcome_id amount with
        | .error e => errOut s e
        | .ok shares =>
          if max_price_per_share < amount then errOut s .SlippageExceeded
          else
            let market1 : Market := { market with
              outcomes := listUpdate market.outcomes outcome_id
                (fun o => { o with total_shares := satAdd o.total_shares shares }),
              total_liquidity := satAdd market.total_liquidity amount }
            let position := (mapGet market1.positions player_id).getD
              { shares_by_outcome := [], total_invested := 0,
                entry_time := current_time }
            let current_shares := (mapGet position.shares_by_outcome outcome_id).getD 0
            let position2 : PlayerPosition := { position with
              shares_by_outcome := mapInsert position.shares_by_outcome
                outcome_id (satAdd current_shares shares),
              total_invested := satAdd position.total_invested amount }
            let market2 : Market := { market1 with
              positions := mapInsert market1.positions player_id position2 }
            let isNew := ¬ market_id ∈ player.active_markets
            let player1 : Player := if isNew then
                { player with active_markets := player.active_markets ++ [market_id] }
              else player
            let market3 : Market := if isNew then
                { market2 with total_participants := market2.total_participants + 1 }
              else market2
            let player2 : Player := { player1 with
              token_balance := satSub player1.token_balance amount,
              total_spent := satAdd player1.total_spent amount,
              markets_participated := player1.markets_participated + 1 }
            let ae := add_experience s player2 10
            match calculate_current_price market3 outcome_id with
            | .error e => ⟨ae.1, ae.2.2, .error e⟩
            | .ok price =>
              let market4 : Market := { market3 with
                outcomes := listUpdate market3.outcomes outcome_id
                  (fun o => { o with current_price := price }) }
              let s2 := { ae.1 with markets := mapInsert ae.1.markets market_id market4 }
              let s3 := { s2 with players := mapInsert s2.players player_id ae.2.1 }
              match distribute_trading_fees s3 market_id amount with
              | .error e => ⟨s3, ae.2.2, .error e⟩
              | .ok s4 =>
                ⟨s4, ae.2.2 ++ [Message.TradeExecuted player_id market_id
                    outcome_id shares amount], .ok ()⟩

/-- sell_shares from contract.rs; the source discards its current_time
argument. -/
def sell_shares (s : PredictionMarketState) (player_id market_id outcome_id : Nat)
    (shares min_price_per_share : Amount) (_current_time : Nat) : OpOut :=
  match mapGet s.markets market_id with
  | none => errOut s .MarketNotFound
  | some market =>
    match mapGet s.players player_id with
    | none => errOut s .PlayerNotFound
    | some player =>
      if market.status ≠ .Active then errOut s .MarketNotActive
      else
        match mapGet market.positions player_id with
        | none => errOut s .NoPosition
        | some position =>
          let owned_shares := (mapGet position.shares_by_outcome outcome_id).getD 0
          if owned_shares < shares then errOut s .InsufficientShares
          else
            match calculate_sell_value market outcome_id shares with
            | .error e => errOut s e
            | .ok sell_value =>
              if sell_value < min_price_per_share then errOut s .SlippageExceeded
              else
                let market1 : Market := { market with
                  outcomes := listUpdate market.outcomes outcome_id
                    (fun o => { o with total_shares := satSub o.total_shares shares }),
                  total_liquidity := satSub market.total_liquidity sell_value }
                let new_shares := satSub owned_shares shares
                let position2 : PlayerPosition := if new_shares = 0 then
                    { position with shares_by_outcome :=
                        (mapRemove position.shares_by_outcome outcome_id) }
                  else
                    { position with shares_by_outcome :=
                        (mapInsert position.shares_by_outcome outcome_id new_shares) }
                let market2 : Market := { market1 with
                  positions := mapInsert market1.positions player_id position2 }
                let player2 : Player := { player with
                  token_balance := satAdd player.token_balance sell_value }
                match calculate_current_price market2 outcome_id with
                | .error e => errOut s e
                | .ok price =>
                  let market3 : Market := { market2 with
                    outcomes := listUpdate market2.outcomes outcome_id
                      (fun o => { o with current_price := price }) }
                  let s2 := { s with markets := mapInsert s.markets market_id market3 }
                  let s3 := { s2 with players := mapInsert s2.players player_id player2 }
                  match distribute_trading_fees s3 market_id sell_value with
                  | .error e => ⟨s3, [], .error e⟩
                  | .ok s4 => ⟨s4, [], .ok ()⟩

/-- The vote bookkeeping of vote_on_outcome: the chosen outcome's entry
(or a fresh zero entry) gains the vote weight and one voter, and the
voter is appended to the distinct-voters list. -/
def castVote (voting : OracleVoting) (outcome_id weight voter_id : Nat) :
    OracleVoting :=
  let wv := (mapGet voting.votes outcome_id).getD
    { total_weight := 0, voter_count := 0 }
  { voting with
    votes := (mapInsert voting.votes outcome_id
      { total_weight := wv.total_weight + weight,
        voter_count := wv.voter_count + 1 }),
    voters := voting.voters ++ [voter_id] }

/-- The oracle-voting record read by vote_on_outcome: the stored one, or
the fresh record the source builds when none exists yet (voting window
of oracle_voting_duration_seconds starting at the current time). -/
def voteRecordOf (s : PredictionMarketState) (market_id current_time : Nat) :
    OracleVoting :=
  (mapGet s.oracle_votes market_id).getD
    { market_id := market_id, voting_start := current_time,
      voting_end := current_time +
        s.config.oracle_voting_duration_seconds * 1000000,
      votes := [], voters := [], resolved := false }

/-- vote_on_outcome from contract.rs.  Note that the source performs no
comparison of current_time against the voting window. -/
def vote_on_outcome (s : PredictionMarketState) (voter_id market_id outcome_id : Nat)
    (current_time : Nat) : OpOut :=
  match mapGet s.markets market_id with
  | none => errOut s .MarketNotFound
  | some market =>
    match mapGet s.players voter_id with
    | none => errOut s .PlayerNotFound
    | some player =>
      if market.status ≠ .Closed then errOut s .MarketNotReadyForVoting
      else if market.resolution_method ≠ .OracleVoting then
        errOut s .InvalidResolutionMethod
      else
        let voting := voteRecordOf s market_id current_time
        if voter_id ∈ voting.voters then errOut s .AlreadyVoted
        else
          let vote_weight := player.reputation
          let voting2 := castVote voting outcome_id vote_weight voter_id
          ⟨{ s with oracle_votes := mapInsert s.oracle_votes market_id voting2 },
            [], .ok ()⟩

/-- The tally loop of resolve_by_oracle_vote: a fold over the vote map in
ascending outcome-id order with a strict-greater comparator, so the first
maximum encountered is kept. -/
def tallyBest : List (Nat × WeightedVotes) → Option (Nat × Nat) → Option (Nat × Nat)
  | [], best => best
  | (oid, w) :: rest, best =>
    match best with
    | some bb =>
      if bb.2 < w.total_weight then tallyBest rest (some (oid, w.total_weight))
      else tallyBest rest (some bb)
    | none => tallyBest rest (some (oid, w.total_weight))

/-- resolve_by_oracle_vote from contract.rs. -/
def resolve_by_oracle_vote (s : PredictionMarketState) (market_id : Nat) :
    Except ContractError Nat :=
  match mapGet s.oracle_votes market_id with
  | none => .error .OracleNotReady
  | some voting =>
    match tallyBest voting.votes none with
    | some ob => .ok ob.1
    | none => .error .OracleNotReady

/-- resolve_automated from contract.rs: the placeholder picks outcome 0. -/
def resolve_automated (_s : PredictionMarketState) (_market_id : Nat) :
    Except ContractError Nat :=
  .ok 0

/-- The tail of trigger_market_resolution after a winner is known: the
market record (with the status the local variable carries at that point)
is marked Resolved and a MarketResolved message is prepared. -/
def finishResolution (s1 : PredictionMarketState) (market_id : Nat)
    (market1 : Market) (winning_outcome : Nat) (current_time : Nat) : OpOut :=
  let market2 : Market := { market1 with
    winning_outcome := some winning_outcome, status := .Resolved,
    resolution_time := some current_time }
  ⟨{ s1 with markets := mapInsert s1.markets market_id market2 },
    [Message.MarketResolved market_id winning_outcome], .ok ()⟩

/-- trigger_market_resolution from contract.rs.  When the market is still
Active it is first set to Closed and that write is persisted before the
resolution strategy runs, so a later OracleNotReady error leaves the
Closed status behind. -/
def trigger_market_resolution (s : PredictionMarketState) (market_id : Nat)
    (current_time : Nat) : OpOut :=
  match mapGet s.markets market_id with
  | none => errOut s .MarketNotFound
  | some market =>
    if current_time < market.end_time then errOut s .MarketNotEnded
    else
      let market1 : Market := if market.status = .Active then
          { market with status := .Closed }
        else market
      let s1 := if market.status = .Active then
          { s with markets := mapInsert s.markets market_id market1 }
        else s
      match market1.resolution_method with
      | .CreatorDecides => ⟨s1, [], .ok ()⟩
      | .OracleVoting =>
        match resolve_by_oracle_vote s1 market_id with
        | .error e => ⟨s1, [], .error e⟩
        | .ok winning_outcome =>
          finishResolution s1 market_id market1 winning_outcome current_time
      | .Automated =>
        match resolve_automated s1 market_id with
        | .error e => ⟨s1, [], .error e⟩
        | .ok winning_outcome =>
          finishResolution s1 market_id market1 winning_outcome current_time

/-- claim_winnings from contract.rs: the payout is the raw winning-share
count and the position is left untouched. -/
def claim_winnings (s : PredictionMarketState) (player_id market_id : Nat) : OpOut :=
  match mapGet s.markets market_id with
  | none => errOut s .MarketNotFound
  | some market =>
    if market.status ≠ .Resolved then errOut s .NotResolved
    else
      match market.winning_outcome with
      | none => errOut s .NotResolved
      | some winning =>
        match mapGet market.positions player_id with
        | none => errOut s .NoPosition
        | some position =>
          let shares := (mapGet position.shares_by_outcome winning).getD 0
          if shares = 0 then errOut s .NoWinnings
          else
            match mapGet s.players player_id with
            | none => errOut s .PlayerNotFound
            | some player =>
              let player2 : Player := { player with
                token_balance := satAdd player.token_balance shares,
                total_earned := satAdd player.total_earned shares }
              ⟨{ s with players := mapInsert s.players player_id player2 },
                [], .ok ()⟩

/-- create_guild from contract.rs; next_guild_id is the block timestamp's
low 32 bits. -/
def create_guild (s : PredictionMarketState) (founder : Nat) (name : String)
    (current_time : Nat) : OpOut :=
  match mapGet s.players founder with
  | none => errOut s .PlayerNotFound
  | some player =>
    if player.guild_id.isSome then errOut s .AlreadyInGuild
    else
      let new_id := current_time % 4294967296
      let guild : Guild :=
        { id := new_id, name := name, founder := founder, members := [founder],
          creation_time := current_time, total_guild_profit := 0,
          guild_level := 1, shared_pool := 0 }
      let s1 := { s with guilds := mapInsert s.guilds new_id guild }
      let player2 : Player := { player with guild_id := some new_id }
      ⟨{ s1 with players := mapInsert s1.players founder player2 },
        [Message.GuildCreated new_id name], .ok ()⟩

/-- join_guild from contract.rs. -/
def join_guild (s : PredictionMarketState) (player_id guild_id : Nat) : OpOut :=
  match mapGet s.players player_id with
  | none => errOut s .PlayerNotFound
  | some player =>
    if player.guild_id.isSome then errOut s .AlreadyInGuild
    else
      match mapGet s.guilds guild_id with
      | none => errOut s .GuildNotFound
      | some guild =>
        let guild2 : Guild := { guild with members := guild.members ++ [player_id] }
        let s1 := { s with guilds := mapInsert s.guilds guild_id guild2 }
        let player2 : Player := { player with guild_id := some guild_id }
        ⟨{ s1 with players := mapInsert s1.players player_id player2 }, [], .ok ()⟩

/-- leave_guild from contract.rs. -/
def leave_guild (s : PredictionMarketState) (player_id : Nat) : OpOut :=
  match mapGet s.players player_id with
  | none => errOut s .PlayerNotFound
  | some player =>
    match player.guild_id with
    | none => errOut s .NotGuildMember
    | some guild_id =>
      match mapGet s.guilds guild_id with
      | none => errOut s .GuildNotFound
      | some guild =>
        let guild2 : Guild :=
          { guild with members := guild.members.filter (fun m => m ≠ player_id) }
        let s1 := { s with guilds := mapInsert s.guilds guild_id guild2 }
        let player2 : Player := { player with guild_id := none }
        ⟨{ s1 with players := mapInsert s1.players player_id player2 }, [], .ok ()⟩

/-- contribute_to_guild from contract.rs. -/
def contribute_to_guild (s : PredictionMarketState) (player_id : Nat)
    (amount : Amount) : OpOut :=
  match mapGet s.players player_id with
  | none => errOut s .PlayerNotFound
  | some player =>
    match player.guild_id with
    | none => errOut s .NotGuildMember
    | some guild_id =>
      if player.token_balance < amount then errOut s .InsufficientBalance
      else
        match mapGet s.guilds guild_id with
        | none => errOut s .GuildNotFound
        | some guild =>
          let player2 : Player := { player with
            token_balance := satSub player.token_balance amount }
          let guild2 : Guild :=
            { guild with shared_pool := satAdd guild.shared_pool amount }
          let s1 := { s with players := mapInsert s.players player_id player2 }
          ⟨{ s1 with guilds := mapInsert s1.guilds guild_id guild2 }, [], .ok ()⟩

/-- update_game_config from contract.rs. -/
def update_game_config (s : PredictionMarketState) (caller : Nat)
    (config : GameConfig) : OpOut :=
  match s.config.admin with
  | some admin =>
    if caller ≠ admin then errOut s .NotAdmin
    else ⟨{ s with config := config }, [], .ok ()⟩
  | none => errOut s .NotAdmin

/-- Dispatch of execute_operation, with the per-operation Result kept so
that it can be talked about.  CreateMarket is always invoked with
MarketType QuickPrediction, as in the source. -/
def applyOperation (s : PredictionMarketState) (op : Operation)
    (player_id current_time : Nat) : OpOut :=
  match op with
  | .RegisterPlayer display_name => register_player s player_id display_name current_time
  | .UpdateProfile display_name => update_player_profile s player_id display_name
  | .ClaimDailyReward => claim_daily_reward s player_id current_time
  | .CreateMarket title description outcome_names duration_seconds resolution_method =>
    create_market s player_id title description .QuickPrediction outcome_names
      duration_seconds resolution_method current_time
  | .BuyShares market_id outcome_id amount max_price_per_share =>
    buy_shares s player_id market_id outcome_id amount max_price_per_share current_time
  | .SellShares market_id outcome_id shares min_price_per_share =>
    sell_shares s player_id market_id outcome_id shares min_price_per_share current_time
  | .VoteOnOutcome market_id outcome_id =>
    vote_on_outcome s player_id market_id outcome_id current_time
  | .TriggerResolution market_id => trigger_market_resolution s market_id current_time
  | .ClaimWinnings market_id => claim_winnings s player_id market_id
  | .CreateGuild name => create_guild s player_id name current_time
  | .JoinGuild guild_id => join_guild s player_id guild_id
  | .LeaveGuild => leave_guild s player_id
  | .ContributeToGuild amount => contribute_to_guild s player_id amount
  | .UpdateGameConfig config => update_game_config s player_id config

/-- The ABI response type of the contract: ContractAbi for
PredictiveManagerAbi fixes Response = (). -/
abbrev Response := Unit

/-- execute_operation from contract.rs: every inner Result is bound to a
wildcard and the unit response is returned, so the caller-visible output
carries no success or failure information. -/
def execute_operation (s : PredictionMarketState) (op : Operation)
    (player_id current_time : Nat) :
    PredictionMarketState × List Message × Response :=
  let out := applyOperation s op player_id current_time
  (out.state, out.msgs, ())

/- Instantiation. -/

/-- The fixed achievement catalog written by init achievements at
instantiation (ids, rewards and requirements as in contract.rs). -/
def achievementCatalog : List Achievement :=
  [ { id := 1, name := "First Steps",
      description := "Make your first prediction",
      reward_tokens := fromTokens 50, reward_xp := 100,
      requirement := .ParticipateInMarkets 1 },
    { id := 2, name := "Market Maker",
      description := "Create 5 markets",
      reward_tokens := fromTokens 200, reward_xp := 500,
      requirement := .CreateMarkets 5 },
    { id := 3, name := "Prediction Master",
      description := "Win 10 markets",
      reward_tokens := fromTokens 500, reward_xp := 1000,
      requirement := .WinMarkets 10 },
    { id := 4, name := "Hot Streak",
      description := "Win 5 markets in a row",
      reward_tokens := fromTokens 300, reward_xp := 750,
      requirement := .WinStreak 5 },
    { id := 5, name := "Big Spender",
      description := "Earn 1000 points profit",
      reward_tokens := fromTokens 1000, reward_xp := 2000,
      requirement := .TotalProfit (fromTokens 1000) },
    { id := 6, name := "Guild Leader",
      description := "Join a guild",
      reward_tokens := fromTokens 150, reward_xp := 300,
      requirement := .JoinGuild },
    { id := 7, name := "Rising Star",
      description := "Reach level 10",
      reward_tokens := fromTokens 400, reward_xp := 1000,
      requirement := .ReachLevel 10 } ]

/-- instantiate from contract.rs: config and singletons are set, the
achievement catalog is inserted, the leaderboard is created and then
refreshed once. -/
def initial_state (config : GameConfig) (current_time : Nat) :
    PredictionMarketState :=
  let s : PredictionMarketState :=
    { config := config, total_supply := 0, next_market_id := 0,
      players := [], markets := [], oracle_votes := [], guilds := [],
      achievements :=
        achievementCatalog.foldl (fun acc a => mapInsert acc a.id a) [],
      leaderboard :=
        { top_traders := [], top_guilds := [], last_updated := current_time } }
  update_enhanced_leaderboard s current_time

/-- One state transition: some operation, signer and block time whose
persisted writes turn s into s2. -/
def Step (s s2 : PredictionMarketState) : Prop :=
  ∃ op pid t, (applyOperation s op pid t).state = s2

/-- States reachable from instantiation through operation execution. -/
def Reachable (config : GameConfig) (t0 : Nat)
    (s : PredictionMarketState) : Prop :=
  Relation.ReflTransGen Step (initial_state config t0) s

/- Observables used by the claims. -/

/-- Sum of all player token balances. -/
def sum_balances (s : PredictionMarketState) : Nat :=
  (s.players.map (fun kv => kv.2.token_balance)).sum

/-- Sum of all guild shared pools. -/
def sum_pools (s : PredictionMarketState) : Nat :=
  (s.guilds.map (fun kv => kv.2.shared_pool)).sum

/-- The token-conservation relation of the spec. -/
def Conservation (s : PredictionMarketState) : Prop :=
  s.total_supply = sum_balances s + sum_pools s

instance (s : PredictionMarketState) : Decidable (Conservation s) :=
  inferInstanceAs (Decidable (_ = _))

/-- Every market outcome's current price is at or above the market's base
price. -/
def PriceFloor (s : PredictionMarketState) : Prop :=
  ∀ mid m, mapGet s.markets mid = some m →
    ∀ o ∈ m.outcomes, m.base_price ≤ o.current_price

/-- Every market's creator is a registered player (holds in every
reachable state: markets are only created by registered players and
players are never deleted). -/
def CreatorsRegistered (s : PredictionMarketState) : Prop :=
  ∀ mid m, mapGet s.markets mid = some m →
    mapContains s.players m.creator = true

/- Concrete fixtures used by the counterexamples and witnesses. -/

/-- A plain test configuration. -/
def cfgT : GameConfig :=
  { initial_player_tokens := fromTokens 1000,
    daily_login_reward := fromTokens 10,
    market_creation_cost := fromTokens 50,
    max_outcomes_per_market := 10,
    min_market_duration_seconds := 60,
    oracle_voting_duration_seconds := 300,
    admin := none }

/-- Outcome name fixtures. -/
def nameYes : String := "yes"

/-- Outcome name fixtures. -/
def nameNo : String := "no"

/-- Title fixture. -/
def titleT : String := "test market"

/-- Description fixture. -/
def descT : String := "a test market"

/-- State after player 1 registers at time 0. -/
def sReg : PredictionMarketState :=
  (applyOperation (initial_state cfgT 0) (.RegisterPlayer none) 1 0).state

/-- State after player 1 additionally creates a two-outcome Automated
market (market id 0) with duration 60 s at time 0. -/
def sCreated : PredictionMarketState :=
  (applyOperation sReg
    (.CreateMarket titleT descT [nameYes, nameNo] 60 .Automated) 1 0).state

/-- State after player 1 additionally buys 100 tokens of outcome 0 of
market 0 at time 10. -/
def sBought : PredictionMarketState :=
  (applyOperation sCreated
    (.BuyShares 0 0 (fromTokens 100) (fromTokens 100)) 1 10).state

/-- State after market 0 is additionally resolved (Automated, winning
outcome 0) at time 60000000 (its end time). -/
def sResolved : PredictionMarketState :=
  (applyOperation sBought (.TriggerResolution 0) 1 60000000).state

/-- State after a second registered player (id 2) also exists. -/
def sReg2 : PredictionMarketState :=
  (applyOperation sCreated (.RegisterPlayer none) 2 0).state

/-- Player 1 buys 100 tokens of outcome 0 of market 0 at time 10 (two
players registered). -/
def sTwoBuyA : PredictionMarketState :=
  (applyOperation sReg2 (.BuyShares 0 0 (fromTokens 100) (fromTokens 100)) 1 10).state

/-- Player 2 additionally buys 100 tokens of the losing outcome 1. -/
def sTwoBuyB : PredictionMarketState :=
  (applyOperation sTwoBuyA (.BuyShares 0 1 (fromTokens 100) (fromTokens 100)) 2 11).state

/-- Market 0 resolved (Automated, winner outcome 0) with a losing side
present: player 1 holds all 100e18 winning shares, total liquidity is
200e18. -/
def sResolvedTwo : PredictionMarketState :=
  (applyOperation sTwoBuyB (.TriggerResolution 0) 1 60000000).state

/-- State after player 1 claims the winnings of market 0 once. -/
def sClaim1 : PredictionMarketState :=
  (applyOperation sResolved (.ClaimWinnings 0) 1 60000001).state

/-- A small Active two-outcome market with nonzero liquidity, used to
exercise the pricing functions away from the first-trade branch. -/
def mktW : Market :=
  { id := 0, creator := 1, title := titleT, description := descT,
    market_type := .QuickPrediction,
    outcomes := [⟨0, nameYes, 0, fromTokens 1⟩, ⟨1, nameNo, 0, fromTokens 1⟩],
    creation_time := 0, end_time := 60000000, resolution_time := none,
    status := .Active, total_liquidity := fromTokens 7, positions := [],
    total_participants := 0, base_price := fromTokens 1,
    smoothing_factor_mil := 1500, winning_outcome := none,
    resolution_method := .Automated }

/-- Claim C1, code-level evidence: token conservation is broken by the
very first CreateMarket.  After registration conservation holds (player
balance 1000 tokens equals total_supply), but creating a market debits
the 50-token creation cost from the creator without burning it from
total_supply (and refunds 1 token of creator fee), leaving total_supply
at 1000 tokens against summed balances and pools of 951 tokens. -/
theorem c1_conservation_violated_by_create_market :
    Conservation sReg ∧
    (applyOperation sReg
      (.CreateMarket titleT descT [nameYes, nameNo] 60 .Automated) 1 0).result = .ok () ∧
    ¬ Conservation sCreated ∧
    sCreated.total_supply = fromTokens 1000 ∧
    sum_balances sCreated + sum_pools sCreated = fromTokens 951 := by
  refine ⟨by decide, by decide, by decide, by decide, by decide⟩

/-- Claim C2, code-level evidence: ClaimWinnings is not single-use.  The
first claim on resolved market 0 succeeds, but claim_winnings never
zeroes the position, so an immediate second claim by the same identity
also succeeds (instead of returning NoWinnings) and mutates the state by
paying the same winning shares again. -/
theorem c2_claim_winnings_not_single_use :
    (applyOperation sResolved (.ClaimWinnings 0) 1 60000001).result = .ok () ∧
    (applyOperation sClaim1 (.ClaimWinnings 0) 1 60000002).result = .ok () ∧
    (applyOperation sClaim1 (.ClaimWinnings 0) 1 60000002).state ≠ sClaim1 ∧
    (mapGet sClaim1.players 1).map Player.token_balance = some (fromTokens 951) ∧
    (mapGet (applyOperation sClaim1 (.ClaimWinnings 0) 1 60000002).state.players 1).map
      Player.token_balance = some (fromTokens 1051) := by
  refine ⟨by decide, by decide, by decide, by decide, by decide⟩

/-- Claim C3, code-level evidence: the payout is the raw winning-share
count, not the pool-proportional amount.  In sResolvedTwo player 1 holds
all 100e18 winning shares and the pool holds 200e18 from both sides; the
proportional payout of the spec would be 200 tokens, but the claim
credits exactly 100 tokens. -/
theorem c3_payout_is_raw_shares_not_proportional :
    (mapGet sResolvedTwo.markets 0).map Market.total_liquidity = some (fromTokens 200) ∧
    ((mapGet sResolvedTwo.markets 0).map (fun m =>
        (mapGet m.positions 1).map (fun p =>
          (mapGet p.shares_by_outcome 0).getD 0))) = some (some (fromTokens 100)) ∧
    (applyOperation sResolvedTwo (.ClaimWinnings 0) 1 60000001).result = .ok () ∧
    (mapGet sResolvedTwo.players 1).map Player.token_balance = some (fromTokens 851) ∧
    (mapGet (applyOperation sResolvedTwo (.ClaimWinnings 0) 1 60000001).state.players 1).map
      Player.token_balance = some (fromTokens 951) ∧
    fromTokens 100 / fromTokens 100 * fromTokens 200 ≠ fromTokens 100 := by
  refine ⟨by decide, by decide, by decide, by decide, by decide, by decide⟩

/-- Claim C8, code-level evidence: the dispatch layer discards every
operation result.  Registering an already-registered player fails inside
register_player with PlayerAlreadyExists, yet execute_operation returns
the untouched state, no messages, and the unit response fixed by the
ABI, indistinguishable from a successful no-op: the caller cannot
observe the failure. -/
theorem c8_dispatch_discards_operation_errors :
    (applyOperation sReg (.RegisterPlayer none) 1 5).result =
      .error .PlayerAlreadyExists ∧
    execute_operation sReg (.RegisterPlayer none) 1 5 = (sReg, [], ()) := by
  exact ⟨by decide, by decide⟩

/-- Claim C10: for every market state and every in-range outcome, buying
issues shares exactly equal to the invested amount and selling returns
tokens exactly equal to the shares sold; the bonding-curve exponent only
feeds a discarded local and never affects the quantities exchanged. -/
theorem c10_trade_quantities_one_to_one (market : Market) (outcome_id : Nat)
    (amount shares : Amount) (h : outcome_id < market.outcomes.length) :
    calculate_shares_for_amount market outcome_id amount = .ok amount ∧
    calculate_sell_value market outcome_id shares = .ok shares := by
  constructor
  · unfold calculate_shares_for_amount
    rw [if_neg (by omega)]
    simp only [ite_self]
  · rfl

/-- Witness for C10 at a concrete market whose liquidity is nonzero, so
the non-first-trade branch of the pricing function is the one exercised. -/
theorem c10_trade_quantities_one_to_one_witness :
    0 < mktW.outcomes.length ∧
    (calculate_shares_for_amount mktW 0 (fromTokens 5) = .ok (fromTokens 5) ∧
     calculate_sell_value mktW 0 (fromTokens 3) = .ok (fromTokens 3)) :=
  ⟨by decide, c10_trade_quantities_one_to_one mktW 0 (fromTokens 5) (fromTokens 3) (by decide)⟩

/- Map lemmas. -/

/-- Lookup after insert-or-replace. -/
theorem mapGet_mapInsert {α : Type} (l : List (Nat × α)) (k q : Nat) (v : α) :
    mapGet (mapInsert l k v) q = if q = k then some v else mapGet l q := by
  induction l with
  | nil => simp [mapInsert, mapGet]
  | cons hd tl ih =>
    obtain ⟨k0, v0⟩ := hd
    unfold mapInsert
    by_cases h1 : k < k0
    · rw [if_pos h1]
      simp only [mapGet]
    · rw [if_neg h1]
      by_cases h2 : k = k0
      · rw [if_pos h2]
        subst h2
        simp only [mapGet]
        by_cases h3 : q = k <;> simp [h3]
      · rw [if_neg h2]
        simp only [mapGet]
        rw [ih]
        by_cases hqk : q = k
        · by_cases hqk0 : q = k0
          · exfalso; omega
          · rw [if_neg hqk0, if_pos hqk, if_pos hqk]
        · by_cases hqk0 : q = k0
          · rw [if_pos hqk0, if_neg hqk, if_pos hqk0]
          · rw [if_neg hqk0, if_neg hqk, if_neg hqk, if_neg hqk0]

/-- Lookup at the inserted key. -/
theorem mapGet_mapInsert_self {α : Type} (l : List (Nat × α)) (k : Nat) (v : α) :
    mapGet (mapInsert l k v) k = some v := by
  rw [mapGet_mapInsert, if_pos rfl]

/-- Insert-or-replace preserves key membership. -/
theorem mapContains_mapInsert_of {α : Type} (l : List (Nat × α)) (k q : Nat)
    (v : α) (hq : mapContains l q = true) :
    mapContains (mapInsert l k v) q = true := by
  unfold mapContains at *
  rw [mapGet_mapInsert]
  split
  · rfl
  · exact hq

/-- resolve_by_oracle_vote reads only the oracle_votes map. -/
theorem resolve_by_oracle_vote_congr (s s2 : PredictionMarketState) (mid : Nat)
    (h : s.oracle_votes = s2.oracle_votes) :
    resolve_by_oracle_vote s mid = resolve_by_oracle_vote s2 mid := by
  unfold resolve_by_oracle_vote
  rw [h]

/-- One unfolding step of mapInsert on the empty map. -/
theorem mapInsert_nil {α : Type} (k : Nat) (v : α) :
    mapInsert [] k v = [(k, v)] := rfl

/-- One unfolding step of mapInsert on a nonempty map. -/
theorem mapInsert_cons {α : Type} (k0 : Nat) (v0 : α) (tl : List (Nat × α))
    (k : Nat) (v : α) :
    mapInsert ((k0, v0) :: tl) k v =
      if k < k0 then (k, v) :: (k0, v0) :: tl
      else if k = k0 then (k, v) :: tl
      else (k0, v0) :: mapInsert tl k v := rfl

/-- Inserting twice at the same key keeps only the second value. -/
theorem mapInsert_mapInsert {α : Type} (l : List (Nat × α)) (k : Nat) (v v2 : α) :
    mapInsert (mapInsert l k v) k v2 = mapInsert l k v2 := by
  induction l with
  | nil =>
    rw [mapInsert_nil, mapInsert_cons, if_neg (lt_irrefl k), if_pos rfl,
      mapInsert_nil]
  | cons hd tl ih =>
    obtain ⟨k0, v0⟩ := hd
    rw [mapInsert_cons k0 v0 tl k v]
    by_cases h1 : k < k0
    · rw [if_pos h1, mapInsert_cons k v ((k0, v0) :: tl) k v2,
        if_neg (lt_irrefl k), if_pos rfl, mapInsert_cons k0 v0 tl k v2,
        if_pos h1]
    · rw [if_neg h1]
      by_cases h2 : k = k0
      · rw [if_pos h2, mapInsert_cons k v tl k v2, if_neg (lt_irrefl k),
          if_pos rfl, mapInsert_cons k0 v0 tl k v2, if_neg h1, if_pos h2]
      · rw [if_neg h2, mapInsert_cons k0 v0 (mapInsert tl k v) k v2,
          if_neg h1, if_neg h2, mapInsert_cons k0 v0 tl k v2, if_neg h1,
          if_neg h2, ih]

/-- Replacing the markets field does not change the oracle tally. -/
theorem resolve_set_markets (s : PredictionMarketState)
    (M : List (Nat × Market)) (mid : Nat) :
    resolve_by_oracle_vote { s with markets := M } mid =
      resolve_by_oracle_vote s mid := rfl

/-- The market record written back by a completed resolution at time t
with winner w. -/
def resolvedMarket (m : Market) (w t : Nat) : Market :=
  { m with
    status := .Resolved, winning_outcome := some w,
    resolution_time := some t }

/-- Inversion of a successful non-CreatorDecides TriggerResolution: the
market had ended, and the strategy produced a winner (for OracleVoting a
successful tally over the untouched vote map, for Automated outcome 0). -/
theorem trigger_ok_inv (s : PredictionMarketState) (mid t : Nat) (m : Market)
    (hm : mapGet s.markets mid = some m)
    (h1 : (trigger_market_resolution s mid t).result = .ok ())
    (hmeth : m.resolution_method ≠ .CreatorDecides) :
    ¬ t < m.end_time ∧
    ((m.resolution_method = .OracleVoting ∧
        ∃ w, resolve_by_oracle_vote s mid = .ok w) ∨
      m.resolution_method = .Automated) := by
  unfold trigger_market_resolution at h1
  rw [hm] at h1
  dsimp only at h1
  by_cases ht : t < m.end_time
  · rw [if_pos ht] at h1
    exact absurd h1 (by simp [errOut])
  rw [if_neg ht] at h1
  refine ⟨ht, ?_⟩
  by_cases hA : m.status = .Active
  · simp only [if_pos hA] at h1
    rcases hmm : m.resolution_method with _ | _ | _
    · rw [hmm] at h1
      dsimp only at h1
      rw [resolve_set_markets] at h1
      rcases hr : resolve_by_oracle_vote s mid with e | w
      · rw [hr] at h1
        exact absurd h1 (by simp)
      · exact Or.inl ⟨rfl, w, rfl⟩
    · exact Or.inr rfl
    · exact absurd hmm hmeth
  · simp only [if_neg hA] at h1
    rcases hmm : m.resolution_method with _ | _ | _
    · rw [hmm] at h1
      dsimp only at h1
      rcases hr : resolve_by_oracle_vote s mid with e | w
      · rw [hr] at h1
        exact absurd h1 (by simp)
      · exact Or.inl ⟨rfl, w, rfl⟩
    · exact Or.inr rfl
    · exact absurd hmm hmeth

/-- Evaluation of a successful TriggerResolution: whatever the previous
status, the market record is overwritten with status Resolved, the
computed winner and the trigger time, and one MarketResolved message is
prepared. -/
theorem trigger_eval_ok (s : PredictionMarketState) (mid t : Nat) (m : Market)
    (w : Nat) (hm : mapGet s.markets mid = some m) (hend : ¬ t < m.end_time)
    (hw : (m.resolution_method = .OracleVoting ∧
            resolve_by_oracle_vote s mid = .ok w) ∨
          (m.resolution_method = .Automated ∧ w = 0)) :
    trigger_market_resolution s mid t =
      ⟨{ s with markets := mapInsert s.markets mid (resolvedMarket m w t) },
        [Message.MarketResolved mid w], .ok ()⟩ := by
  unfold trigger_market_resolution
  rw [hm]
  dsimp only
  rw [if_neg hend]
  by_cases hA : m.status = .Active
  · simp only [if_pos hA]
    rcases hw with ⟨hOV, hres⟩ | ⟨hAuto, hw0⟩
    · rw [hOV]
      dsimp only
      rw [resolve_set_markets, hres]
      dsimp only
      unfold finishResolution
      dsimp only
      rw [mapInsert_mapInsert]
      unfold resolvedMarket
      rw [hOV]
    · rw [hAuto]
      dsimp only
      unfold resolve_automated
      dsimp only
      unfold finishResolution
      dsimp only
      rw [mapInsert_mapInsert, hw0]
      unfold resolvedMarket
      rw [hAuto]
  · simp only [if_neg hA]
    rcases hw with ⟨hOV, hres⟩ | ⟨hAuto, hw0⟩
    · rw [hOV]
      dsimp only
      rw [hres]
      dsimp only
      unfold finishResolution
      rfl
    · rw [hAuto]
      dsimp only
      unfold resolve_automated
      dsimp only
      unfold finishResolution
      rw [hw0]
      rfl

/-- Claim C4, counterexample to the claim as stated: market 0 of
sResolved is already Resolved (winning outcome 0), yet a further
TriggerResolution prepares a second MarketResolved notification instead
of emitting nothing. -/
theorem c4_second_trigger_reemits_event :
    (mapGet sResolved.markets 0).map Market.status = some .Resolved ∧
    (applyOperation sResolved (.TriggerResolution 0) 1 60000002).msgs =
      [Message.MarketResolved 0 0] := by
  exact ⟨by decide, by decide⟩

/-- Claim C4 as amended: re-triggering a market that a first successful
TriggerResolution resolved (under the OracleVoting or Automated
strategy) succeeds, computes the same winning_outcome, leaves the
market Resolved, performs no payout (players and total_supply are
untouched), but does re-emit a MarketResolved notification and reruns
the resolution write. -/
theorem c4_trigger_idempotent_amended
    (s : PredictionMarketState) (mid t1 t2 : Nat) (m : Market)
    (hm : mapGet s.markets mid = some m)
    (hmeth : m.resolution_method ≠ .CreatorDecides)
    (h1 : (trigger_market_resolution s mid t1).result = .ok ())
    (hend2 : m.end_time ≤ t2) :
    ∃ w,
      (∃ m1, mapGet (trigger_market_resolution s mid t1).state.markets mid = some m1 ∧
        m1.winning_outcome = some w ∧ m1.status = .Resolved) ∧
      (trigger_market_resolution (trigger_market_resolution s mid t1).state mid t2).result = .ok () ∧
      (∃ m2, mapGet (trigger_market_resolution
          (trigger_market_resolution s mid t1).state mid t2).state.markets mid = some m2 ∧
        m2.winning_outcome = some w ∧ m2.status = .Resolved) ∧
      (trigger_market_resolution (trigger_market_resolution s mid t1).state mid t2).state.players =
        (trigger_market_resolution s mid t1).state.players ∧
      (trigger_market_resolution (trigger_market_resolution s mid t1).state mid t2).state.total_supply =
        (trigger_market_resolution s mid t1).state.total_supply ∧
      (trigger_market_resolution (trigger_market_resolution s mid t1).state mid t2).msgs =
        [Message.MarketResolved mid w] := by
  obtain ⟨ht1, hc⟩ := trigger_ok_inv s mid t1 m hm h1 hmeth
  rcases hc with ⟨hOV, w, hw⟩ | hAuto
  · have e1 := trigger_eval_ok s mid t1 m w hm ht1 (Or.inl ⟨hOV, hw⟩)
    have e2 := trigger_eval_ok
      { s with markets := mapInsert s.markets mid (resolvedMarket m w t1) }
      mid t2 (resolvedMarket m w t1) w
      (mapGet_mapInsert_self _ _ _)
      (by show ¬ t2 < m.end_time; omega)
      (Or.inl ⟨hOV, by rw [resolve_set_markets]; exact hw⟩)
    rw [e1]
    dsimp only
    rw [e2]
    refine ⟨w, ⟨resolvedMarket m w t1, mapGet_mapInsert_self _ _ _, rfl, rfl⟩,
      rfl, ⟨resolvedMarket (resolvedMarket m w t1) w t2, ?_, rfl, rfl⟩,
      rfl, rfl, rfl⟩
    dsimp only
    rw [mapInsert_mapInsert]
    exact mapGet_mapInsert_self _ _ _
  · have e1 := trigger_eval_ok s mid t1 m 0 hm ht1 (Or.inr ⟨hAuto, rfl⟩)
    have e2 := trigger_eval_ok
      { s with markets := mapInsert s.markets mid (resolvedMarket m 0 t1) }
      mid t2 (resolvedMarket m 0 t1) 0
      (mapGet_mapInsert_self _ _ _)
      (by show ¬ t2 < m.end_time; omega)
      (Or.inr ⟨hAuto, rfl⟩)
    rw [e1]
    dsimp only
    rw [e2]
    refine ⟨0, ⟨resolvedMarket m 0 t1, mapGet_mapInsert_self _ _ _, rfl, rfl⟩,
      rfl, ⟨resolvedMarket (resolvedMarket m 0 t1) 0 t2, ?_, rfl, rfl⟩,
      rfl, rfl, rfl⟩
    dsimp only
    rw [mapInsert_mapInsert]
    exact mapGet_mapInsert_self _ _ _

/-- The concrete market record of market 0 in sBought. -/
def mB4 : Market := (mapGet sBought.markets 0).getD mktW

/-- Witness for the amended C4 at the concrete Automated market of
sBought, triggered twice past its end time. -/
theorem c4_trigger_idempotent_amended_witness :
    ∃ w,
      (∃ m1, mapGet (trigger_market_resolution sBought 0 60000000).state.markets 0 = some m1 ∧
        m1.winning_outcome = some w ∧ m1.status = .Resolved) ∧
      (trigger_market_resolution (trigger_market_resolution sBought 0 60000000).state 0 60000001).result = .ok () ∧
      (∃ m2, mapGet (trigger_market_resolution
          (trigger_market_resolution sBought 0 60000000).state 0 60000001).state.markets 0 = some m2 ∧
        m2.winning_outcome = some w ∧ m2.status = .Resolved) ∧
      (trigger_market_resolution (trigger_market_resolution sBought 0 60000000).state 0 60000001).state.players =
        (trigger_market_resolution sBought 0 60000000).state.players ∧
      (trigger_market_resolution (trigger_market_resolution sBought 0 60000000).state 0 60000001).state.total_supply =
        (trigger_market_resolution sBought 0 60000000).state.total_supply ∧
      (trigger_market_resolution (trigger_market_resolution sBought 0 60000000).state 0 60000001).msgs =
        [Message.MarketResolved 0 w] :=
  c4_trigger_idempotent_amended sBought 0 60000000 60000001 mB4
    (by decide) (by decide) (by decide) (by decide)

/-- A fresh registered player record (as register_player builds it under
cfgT at time 0). -/
def playerT (pid : Nat) : Player :=
  { id := pid, display_name := none, registration_time := 0, last_login := 0,
    token_balance := fromTokens 1000, total_earned := fromTokens 1000,
    total_spent := 0, level := 1, experience_points := 0, reputation := 100,
    markets_participated := 0, markets_won := 0, total_profit := 0,
    win_streak := 0, best_win_streak := 0, guild_id := none,
    achievements_earned := [], active_markets := [] }

/-- A Closed OracleVoting market. -/
def mktClosedOV : Market :=
  { mktW with status := .Closed, resolution_method := .OracleVoting }

/-- A voting record whose window ended at time 5, holding one weight-100
vote for outcome 0 by player 1. -/
def votingRecT : OracleVoting :=
  { market_id := 0, voting_start := 0, voting_end := 5,
    votes := [(0, ⟨100, 1⟩)], voters := [1], resolved := false }

/-- A state with players 1 and 7, the Closed OracleVoting market 0, and
the expired voting record votingRecT. -/
def sVoteC7 : PredictionMarketState :=
  { initial_state cfgT 0 with
    players := [(1, playerT 1), (7, playerT 7)],
    markets := [(0, mktClosedOV)],
    oracle_votes := [(0, votingRecT)] }

/-- Claim C7, counterexample to the claim as stated: the voting window of
market 0 ended at time 5, yet player 7 successfully votes at time 100;
vote_on_outcome never compares the current time with voting_end. -/
theorem c7_vote_after_window_end_succeeds :
    (mapGet sVoteC7.oracle_votes 0).map OracleVoting.voting_end = some 5 ∧
    ¬ (100 : Nat) < 5 ∧
    (vote_on_outcome sVoteC7 7 0 1 100).result = .ok () := by
  refine ⟨by decide, by decide, by decide⟩


/-- Evaluation of vote_on_outcome when the market is not Closed. -/
theorem vote_eval_not_closed (s : PredictionMarketState) (pid mid oid t : Nat)
    (m : Market) (p : Player) (hm : mapGet s.markets mid = some m)
    (hp : mapGet s.players pid = some p) (h1 : m.status ≠ .Closed) :
    vote_on_outcome s pid mid oid t = errOut s .MarketNotReadyForVoting := by
  unfold vote_on_outcome
  rw [hm, hp]
  dsimp only
  rw [if_pos h1]

/-- Evaluation of vote_on_outcome when the market is Closed but does not
use OracleVoting. -/
theorem vote_eval_not_oracle (s : PredictionMarketState) (pid mid oid t : Nat)
    (m : Market) (p : Player) (hm : mapGet s.markets mid = some m)
    (hp : mapGet s.players pid = some p) (h1 : m.status = .Closed)
    (h2 : m.resolution_method ≠ .OracleVoting) :
    vote_on_outcome s pid mid oid t = errOut s .InvalidResolutionMethod := by
  unfold vote_on_outcome
  rw [hm, hp]
  dsimp only
  rw [if_neg (by simp [h1]), if_pos h2]

/-- Evaluation of vote_on_outcome when the identity already voted. -/
theorem vote_eval_already (s : PredictionMarketState) (pid mid oid t : Nat)
    (m : Market) (p : Player) (hm : mapGet s.markets mid = some m)
    (hp : mapGet s.players pid = some p) (h1 : m.status = .Closed)
    (h2 : m.resolution_method = .OracleVoting)
    (h3 : pid ∈ (voteRecordOf s mid t).voters) :
    vote_on_outcome s pid mid oid t = errOut s .AlreadyVoted := by
  unfold vote_on_outcome
  rw [hm, hp]
  dsimp only
  rw [if_neg (by simp [h1]), if_neg (by simp [h2]), if_pos h3]

/-- Evaluation of a successful vote_on_outcome: the updated record is
written back under the market id and nothing else changes. -/
theorem vote_eval_ok (s : PredictionMarketState) (pid mid oid t : Nat)
    (m : Market) (p : Player) (hm : mapGet s.markets mid = some m)
    (hp : mapGet s.players pid = some p) (h1 : m.status = .Closed)
    (h2 : m.resolution_method = .OracleVoting)
    (h3 : pid ∉ (voteRecordOf s mid t).voters) :
    vote_on_outcome s pid mid oid t =
      ⟨{ s with oracle_votes := (mapInsert s.oracle_votes mid
          (castVote (voteRecordOf s mid t) oid p.reputation pid)) },
        [], .ok ()⟩ := by
  unfold vote_on_outcome
  rw [hm, hp]
  dsimp only
  rw [if_neg (by simp [h1]), if_neg (by simp [h2]), if_neg h3]

/-- Claim C7 as amended: with the market and voter existing, a vote
succeeds exactly when the market is Closed, uses OracleVoting, and the
identity has not voted before — the source performs no voting-window
check, so no before-the-window-end condition appears.  On success the
weight recorded for the chosen outcome grows by exactly the voter's
reputation at cast time, and a repeated vote by the same identity (at
any later time) fails AlreadyVoted. -/
theorem c7_vote_preconditions_amended
    (s : PredictionMarketState) (pid mid oid t : Nat) (m : Market) (p : Player)
    (hm : mapGet s.markets mid = some m) (hp : mapGet s.players pid = some p) :
    ((vote_on_outcome s pid mid oid t).result = .ok () ↔
      (m.status = .Closed ∧ m.resolution_method = .OracleVoting ∧
        pid ∉ (voteRecordOf s mid t).voters)) ∧
    ((vote_on_outcome s pid mid oid t).result = .ok () →
      (mapGet (vote_on_outcome s pid mid oid t).state.oracle_votes mid).map
          (fun v2 => ((mapGet v2.votes oid).getD ⟨0, 0⟩).total_weight) =
        some (((mapGet (voteRecordOf s mid t).votes oid).getD ⟨0, 0⟩).total_weight +
          p.reputation)) ∧
    ((vote_on_outcome s pid mid oid t).result = .ok () → ∀ t2,
      (vote_on_outcome (vote_on_outcome s pid mid oid t).state pid mid oid t2).result =
        .error .AlreadyVoted) := by
  have hpre : (vote_on_outcome s pid mid oid t).result = .ok () →
      m.status = .Closed ∧ m.resolution_method = .OracleVoting ∧
        pid ∉ (voteRecordOf s mid t).voters := by
    intro hok
    by_cases h1 : m.status = .Closed
    · by_cases h2 : m.resolution_method = .OracleVoting
      · by_cases h3 : pid ∈ (voteRecordOf s mid t).voters
        · rw [vote_eval_already s pid mid oid t m p hm hp h1 h2 h3] at hok
          exact absurd hok (by simp [errOut])
        · exact ⟨h1, h2, h3⟩
      · rw [vote_eval_not_oracle s pid mid oid t m p hm hp h1 h2] at hok
        exact absurd hok (by simp [errOut])
    · rw [vote_eval_not_closed s pid mid oid t m p hm hp h1] at hok
      exact absurd hok (by simp [errOut])
  refine ⟨⟨hpre, ?_⟩, ?_, ?_⟩
  · rintro ⟨h1, h2, h3⟩
    rw [vote_eval_ok s pid mid oid t m p hm hp h1 h2 h3]
  · intro hok
    obtain ⟨h1, h2, h3⟩ := hpre hok
    rw [vote_eval_ok s pid mid oid t m p hm hp h1 h2 h3]
    dsimp only
    rw [mapGet_mapInsert_self]
    simp only [Option.map_some']
    unfold castVote
    dsimp only
    rw [mapGet_mapInsert_self]
    rfl
  · intro hok t2
    obtain ⟨h1, h2, h3⟩ := hpre hok
    rw [vote_eval_ok s pid mid oid t m p hm hp h1 h2 h3]
    dsimp only
    have h3b : pid ∈ (voteRecordOf
        { s with oracle_votes := (mapInsert s.oracle_votes mid
            (castVote (voteRecordOf s mid t) oid p.reputation pid)) }
        mid t2).voters := by
      unfold voteRecordOf
      dsimp only
      rw [mapGet_mapInsert_self]
      show pid ∈ (castVote (voteRecordOf s mid t) oid p.reputation pid).voters
      unfold castVote
      dsimp only
      exact List.mem_append_right _ (List.mem_singleton.mpr rfl)
    rw [vote_eval_already
      { s with oracle_votes := (mapInsert s.oracle_votes mid
          (castVote (voteRecordOf s mid t) oid p.reputation pid)) }
      pid mid oid t2 m p hm hp h1 h2 h3b]
    rfl

/-- Witness for the amended C7 at the concrete state sVoteC7: player 7
votes for outcome 1 of the Closed OracleVoting market 0 at time 100. -/
theorem c7_vote_preconditions_amended_witness :
    ((vote_on_outcome sVoteC7 7 0 1 100).result = .ok () ↔
      (mktClosedOV.status = .Closed ∧ mktClosedOV.resolution_method = .OracleVoting ∧
        7 ∉ (voteRecordOf sVoteC7 0 100).voters)) ∧
    ((vote_on_outcome sVoteC7 7 0 1 100).result = .ok () →
      (mapGet (vote_on_outcome sVoteC7 7 0 1 100).state.oracle_votes 0).map
          (fun v2 => ((mapGet v2.votes 1).getD ⟨0, 0⟩).total_weight) =
        some (((mapGet (voteRecordOf sVoteC7 0 100).votes 1).getD ⟨0, 0⟩).total_weight +
          (playerT 7).reputation)) ∧
    ((vote_on_outcome sVoteC7 7 0 1 100).result = .ok () → ∀ t2,
      (vote_on_outcome (vote_on_outcome sVoteC7 7 0 1 100).state 7 0 1 t2).result =
        .error .AlreadyVoted) :=
  c7_vote_preconditions_amended sVoteC7 7 0 1 100 mktClosedOV (playerT 7)
    (by decide) (by decide)

/-- The tally loop with a nonempty accumulator always yields a result. -/
theorem tallyBest_some (l : List (Nat × WeightedVotes)) :
    ∀ b : Nat × Nat, ∃ r, tallyBest l (some b) = some r := by
  induction l with
  | nil => exact fun b => ⟨b, rfl⟩
  | cons hd tl ih =>
    intro b
    obtain ⟨oid, w⟩ := hd
    show ∃ r, (if b.2 < w.total_weight then tallyBest tl (some (oid, w.total_weight))
      else tallyBest tl (some b)) = some r
    by_cases h : b.2 < w.total_weight
    · rw [if_pos h]; exact ih _
    · rw [if_neg h]; exact ih _

/-- Invariant of the tally loop: starting from a current leader (bo, bw)
whose key precedes every remaining key, the result carries the maximum
weight seen, comes from the leader or from the list with a strictly
larger weight, and among equal maximal weights the earliest (lowest) key
is kept, because later entries only displace the leader with a strictly
greater weight. -/
theorem tallyBest_spec (l : List (Nat × WeightedVotes)) :
    ∀ bo bw o wgt : Nat,
    (∀ p ∈ l, bo < p.1) →
    List.Pairwise (fun a b => a.1 < b.1) l →
    tallyBest l (some (bo, bw)) = some (o, wgt) →
    bw ≤ wgt ∧
    ((o, wgt) = (bo, bw) ∨
      ∃ wv, (o, wv) ∈ l ∧ wv.total_weight = wgt ∧ bw < wgt) ∧
    (∀ p ∈ l, p.2.total_weight ≤ wgt) ∧
    (∀ p ∈ l, p.2.total_weight = wgt → o ≤ p.1) := by
  induction l with
  | nil =>
    intro bo bw o wgt _ _ htal
    have h : (bo, bw) = (o, wgt) := by
      have : some (bo, bw) = some (o, wgt) := htal
      exact Option.some.inj this
    obtain ⟨h1, h2⟩ := Prod.mk.injEq .. ▸ h
    subst h1
    subst h2
    exact ⟨le_refl _, Or.inl rfl, by simp, by simp⟩
  | cons hd tl ih =>
    intro bo bw o wgt hbo hpair htal
    obtain ⟨k, w⟩ := hd
    have hk : bo < k := hbo (k, w) (List.mem_cons_self _ _)
    have hrest : ∀ p ∈ tl, k < p.1 := by
      intro p hp
      exact (List.pairwise_cons.mp hpair).1 p hp
    have hpair2 : List.Pairwise (fun a b => a.1 < b.1) tl :=
      (List.pairwise_cons.mp hpair).2
    have htal2 : (if bw < w.total_weight then
        tallyBest tl (some (k, w.total_weight))
      else tallyBest tl (some (bo, bw))) = some (o, wgt) := htal
    by_cases hlt : bw < w.total_weight
    · rw [if_pos hlt] at htal2
      obtain ⟨h1, h2, h3, h4⟩ := ih k w.total_weight o wgt hrest hpair2 htal2
      refine ⟨by omega, ?_, ?_, ?_⟩
      · rcases h2 with heq | ⟨wv, hmem, hweq, hwlt⟩
        · obtain ⟨he1, he2⟩ := Prod.mk.injEq .. ▸ heq
          subst he1
          exact Or.inr ⟨w, List.mem_cons_self _ _, he2.symm, by omega⟩
        · exact Or.inr ⟨wv, List.mem_cons_of_mem _ hmem, hweq, by omega⟩
      · intro p hp
        rcases List.mem_cons.mp hp with rfl | hptl
        · exact h1
        · exact h3 p hptl
      · intro p hp hpe
        rcases List.mem_cons.mp hp with rfl | hptl
        · rcases h2 with heq | ⟨wv, _, _, hwlt⟩
          · obtain ⟨he1, _⟩ := Prod.mk.injEq .. ▸ heq
            subst he1
            exact le_refl _
          · have hpe2 : w.total_weight = wgt := hpe
            omega
        · exact h4 p hptl hpe
    · rw [if_neg hlt] at htal2
      obtain ⟨h1, h2, h3, h4⟩ := ih bo bw o wgt
        (fun p hp => lt_trans hk (hrest p hp)) hpair2 htal2
      refine ⟨h1, ?_, ?_, ?_⟩
      · rcases h2 with heq | ⟨wv, hmem, hweq, hwlt⟩
        · exact Or.inl heq
        · exact Or.inr ⟨wv, List.mem_cons_of_mem _ hmem, hweq, hwlt⟩
      · intro p hp
        rcases List.mem_cons.mp hp with rfl | hptl
        · show w.total_weight ≤ wgt
          omega
        · exact h3 p hptl
      · intro p hp hpe
        rcases List.mem_cons.mp hp with rfl | hptl
        · have hpe2 : w.total_weight = wgt := hpe
          rcases h2 with heq | ⟨wv, _, _, hwlt⟩
          · obtain ⟨he1, he2⟩ := Prod.mk.injEq .. ▸ heq
            show o ≤ k
            omega
          · omega
        · exact h4 p hptl hpe

/-- Claim C6: the oracle tally fails OracleNotReady when no votes were
cast (no record, or an empty vote map), and otherwise selects an outcome
holding the greatest accumulated weight, with the lowest outcome id
winning among ties (the vote map is iterated in ascending key order and
only a strictly greater weight displaces the current leader). -/
theorem c6_oracle_tally_lowest_id_wins_ties (s : PredictionMarketState) (mid : Nat) :
    (mapGet s.oracle_votes mid = none →
      resolve_by_oracle_vote s mid = .error .OracleNotReady) ∧
    (∀ v, mapGet s.oracle_votes mid = some v → v.votes = [] →
      resolve_by_oracle_vote s mid = .error .OracleNotReady) ∧
    (∀ v o, mapGet s.oracle_votes mid = some v →
      List.Pairwise (fun a b => a.1 < b.1) v.votes →
      resolve_by_oracle_vote s mid = .ok o →
      ∃ wv, (o, wv) ∈ v.votes ∧
        (∀ p ∈ v.votes, p.2.total_weight ≤ wv.total_weight) ∧
        (∀ p ∈ v.votes, p.2.total_weight = wv.total_weight → o ≤ p.1)) := by
  refine ⟨?_, ?_, ?_⟩
  · intro h
    unfold resolve_by_oracle_vote
    rw [h]
  · intro v hv hemp
    unfold resolve_by_oracle_vote
    rw [hv]
    dsimp only
    rw [hemp]
    rfl
  · intro v o hv hpair hres
    unfold resolve_by_oracle_vote at hres
    rw [hv] at hres
    dsimp only at hres
    rcases hveq : v.votes with _ | ⟨⟨k, w⟩, tl⟩
    · rw [hveq] at hres
      exact absurd hres (by simp [tallyBest])
    · rw [hveq] at hres
      have hstep : tallyBest ((k, w) :: tl) none =
          tallyBest tl (some (k, w.total_weight)) := rfl
      rw [hstep] at hres
      obtain ⟨r, hr⟩ := tallyBest_some tl (k, w.total_weight)
      rw [hr] at hres
      dsimp only at hres
      obtain ⟨ro, rwgt⟩ := r
      have ho : ro = o := by
        have : Except.ok (ε := ContractError) ro = Except.ok o := hres
        exact Except.ok.inj this
      subst ho
      rw [hveq] at hpair
      have hrest : ∀ p ∈ tl, k < p.1 := (List.pairwise_cons.mp hpair).1
      have hpair2 := (List.pairwise_cons.mp hpair).2
      obtain ⟨h1, h2, h3, h4⟩ := tallyBest_spec tl k w.total_weight ro rwgt
        hrest hpair2 hr
      rcases h2 with heq | ⟨wv, hmem, hweq, hwlt⟩
      · obtain ⟨he1, he2⟩ := Prod.mk.injEq .. ▸ heq
        subst he1
        refine ⟨w, List.mem_cons_self _ _, ?_, ?_⟩
        · intro p hp
          rcases List.mem_cons.mp hp with rfl | hptl
          · exact le_refl _
          · have := h3 p hptl
            omega
        · intro p hp hpe
          rcases List.mem_cons.mp hp with rfl | hptl
          · exact le_refl _
          · exact h4 p hptl (by omega)
      · refine ⟨wv, List.mem_cons_of_mem _ hmem, ?_, ?_⟩
        · intro p hp
          rcases List.mem_cons.mp hp with rfl | hptl
          · show w.total_weight ≤ wv.total_weight
            omega
          · have := h3 p hptl
            omega
        · intro p hp hpe
          rcases List.mem_cons.mp hp with rfl | hptl
          · have hpe2 : w.total_weight = wv.total_weight := hpe
            omega
          · exact h4 p hptl (by omega)

/-- A voting record with two equal-weight (100) votes for outcomes 0 and
1 — the spec's tie-break test. -/
def votingTie : OracleVoting :=
  { market_id := 0, voting_start := 0, voting_end := 300000000,
    votes := [(0, ⟨100, 1⟩), (1, ⟨100, 1⟩)], voters := [1, 2],
    resolved := false }

/-- A state holding only the tied voting record for market 0. -/
def sTie : PredictionMarketState :=
  { initial_state cfgT 0 with oracle_votes := [(0, votingTie)] }

/-- Witness for C6 at the tie fixture: the tally resolves to outcome 0
(the lowest id among the two maximal-weight outcomes). -/
theorem c6_oracle_tally_lowest_id_wins_ties_witness :
    resolve_by_oracle_vote sTie 0 = .ok 0 ∧
    ∃ wv, (0, wv) ∈ votingTie.votes ∧
      (∀ p ∈ votingTie.votes, p.2.total_weight ≤ wv.total_weight) ∧
      (∀ p ∈ votingTie.votes, p.2.total_weight = wv.total_weight → 0 ≤ p.1) :=
  ⟨by decide,
    (c6_oracle_tally_lowest_id_wins_ties sTie 0).2.2 votingTie 0
      (by decide) (by decide) (by decide)⟩

/- Price-floor invariant machinery (claim C9). -/

/-- The price recomputed by calculate_current_price never falls below the
market's base price. -/
theorem calculate_current_price_ge (m : Market) (oid : Nat) (p : Amount)
    (h : calculate_current_price m oid = .ok p) : m.base_price ≤ p := by
  unfold calculate_current_price at h
  split at h
  · cases h
  · dsimp only at h
    split at h
    · cases Except.ok.inj h
      exact le_refl _
    · cases Except.ok.inj h
      exact le_max_right _ _

/-- Membership after an in-place index update. -/
theorem listUpdate_mem {α : Type} (l : List α) (i : Nat) (f : α → α) (o : α)
    (h : o ∈ listUpdate l i f) : o ∈ l ∨ ∃ x ∈ l, o = f x := by
  unfold listUpdate at h
  split at h
  · rename_i x hx
    rcases List.mem_or_eq_of_mem_set h with h2 | h2
    · exact Or.inl h2
    · exact Or.inr ⟨x, List.get?_mem hx, h2⟩
  · exact Or.inl h

/-- PriceFloor only depends on the markets map. -/
theorem priceFloor_of_markets_eq (s s2 : PredictionMarketState)
    (h : s2.markets = s.markets) (hPF : PriceFloor s) : PriceFloor s2 := by
  intro mid m hm
  rw [h] at hm
  exact hPF mid m hm

/-- PriceFloor after inserting one more market that satisfies the floor. -/
theorem priceFloor_insert (s : PredictionMarketState) (s2 : PredictionMarketState)
    (mid : Nat) (mk : Market) (hPF : PriceFloor s)
    (hmkts : s2.markets = mapInsert s.markets mid mk)
    (hmk : ∀ o ∈ mk.outcomes, mk.base_price ≤ o.current_price) :
    PriceFloor s2 := by
  intro q m2 hq
  rw [hmkts, mapGet_mapInsert] at hq
  split at hq
  · cases Option.some.inj hq
    exact hmk
  · exact hPF q m2 hq

/-- check_achievements never touches the markets map. -/
theorem check_achievements_markets (s : PredictionMarketState) (p : Player) :
    (check_achievements s p).1.markets = s.markets := by
  unfold check_achievements
  dsimp only
  split <;> rfl

/-- add_experience never touches the markets map. -/
theorem add_experience_markets (s : PredictionMarketState) (p : Player) (xp : Nat) :
    (add_experience s p xp).1.markets = s.markets := by
  unfold add_experience
  dsimp only
  split
  · exact check_achievements_markets _ _
  · rfl

/-- update_enhanced_leaderboard never touches the markets map. -/
theorem update_enhanced_leaderboard_markets (s : PredictionMarketState) (t : Nat) :
    (update_enhanced_leaderboard s t).markets = s.markets := rfl

/-- distribute_market_creator_fee never touches the markets map. -/
theorem distribute_market_creator_fee_markets (s : PredictionMarketState)
    (c : Nat) (fee t : Nat) (s4 : PredictionMarketState)
    (h : distribute_market_creator_fee s c fee t = .ok s4) :
    s4.markets = s.markets := by
  unfold distribute_market_creator_fee at h
  dsimp only at h
  by_cases hca : 0 < satDiv (satMul fee 2) (fromTokens 100)
  · rw [if_pos hca] at h
    rcases hcp : mapGet s.players c with _ | cp
    · rw [hcp] at h
      dsimp only at h
      exact absurd h (by simp)
    · rw [hcp] at h
      dsimp only at h
      cases Except.ok.inj h
      rw [update_enhanced_leaderboard_markets]
      split <;> rfl
  · rw [if_neg hca] at h
    dsimp only at h
    cases Except.ok.inj h
    rw [update_enhanced_leaderboard_markets]
    split <;> rfl

/-- distribute_trading_fees never touches the markets map. -/
theorem distribute_trading_fees_markets (s : PredictionMarketState)
    (mid : Nat) (amt : Nat) (s4 : PredictionMarketState)
    (h : distribute_trading_fees s mid amt = .ok s4) :
    s4.markets = s.markets := by
  unfold distribute_trading_fees at h
  rcases hmk : mapGet s.markets mid with _ | mkt
  · rw [hmk] at h
    dsimp only at h
    exact absurd h (by simp)
  · rw [hmk] at h
    dsimp only at h
    by_cases hfee : 0 < satDiv (satMul amt 1) (fromTokens 200)
    · rw [if_pos hfee] at h
      rcases hcp : mapGet s.players mkt.creator with _ | cp
      · rw [hcp] at h
        dsimp only at h
        exact absurd h (by simp)
      · rw [hcp] at h
        dsimp only at h
        cases Except.ok.inj h
        rfl
    · rw [if_neg hfee] at h
      cases Except.ok.inj h
      rfl

/-- register_player never touches the markets map. -/
theorem register_player_markets (s : PredictionMarketState) (pid : Nat)
    (dn : Option String) (t : Nat) :
    (register_player s pid dn t).state.markets = s.markets := by
  unfold register_player errOut
  dsimp only
  repeat (first | rfl | split)

/-- update_player_profile never touches the markets map. -/
theorem update_player_profile_markets (s : PredictionMarketState) (pid : Nat)
    (dn : Option String) :
    (update_player_profile s pid dn).state.markets = s.markets := by
  unfold update_player_profile errOut
  dsimp only
  repeat (first | rfl | split)

/-- claim_daily_reward never touches the markets map. -/
theorem claim_daily_reward_markets (s : PredictionMarketState) (pid t : Nat) :
    (claim_daily_reward s pid t).state.markets = s.markets := by
  unfold claim_daily_reward errOut
  dsimp only
  repeat (first | rfl | split)

/-- vote_on_outcome never touches the markets map. -/
theorem vote_on_outcome_markets (s : PredictionMarketState) (pid mid oid t : Nat) :
    (vote_on_outcome s pid mid oid t).state.markets = s.markets := by
  unfold vote_on_outcome errOut
  dsimp only
  repeat (first | rfl | split)

/-- claim_winnings never touches the markets map. -/
theorem claim_winnings_markets (s : PredictionMarketState) (pid mid : Nat) :
    (claim_winnings s pid mid).state.markets = s.markets := by
  unfold claim_winnings errOut
  dsimp only
  repeat (first | rfl | split)

/-- create_guild never touches the markets map. -/
theorem create_guild_markets (s : PredictionMarketState) (pid : Nat)
    (name : String) (t : Nat) :
    (create_guild s pid name t).state.markets = s.markets := by
  unfold create_guild errOut
  dsimp only
  repeat (first | rfl | split)

/-- join_guild never touches the markets map. -/
theorem join_guild_markets (s : PredictionMarketState) (pid gid : Nat) :
    (join_guild s pid gid).state.markets = s.markets := by
  unfold join_guild errOut
  dsimp only
  repeat (first | rfl | split)

/-- leave_guild never touches the markets map. -/
theorem leave_guild_markets (s : PredictionMarketState) (pid : Nat) :
    (leave_guild s pid).state.markets = s.markets := by
  unfold leave_guild errOut
  dsimp only
  repeat (first | rfl | split)

/-- contribute_to_guild never touches the markets map. -/
theorem contribute_to_guild_markets (s : PredictionMarketState) (pid : Nat)
    (amt : Amount) :
    (contribute_to_guild s pid amt).state.markets = s.markets := by
  unfold contribute_to_guild errOut
  dsimp only
  repeat (first | rfl | split)

/-- update_game_config never touches the markets map. -/
theorem update_game_config_markets (s : PredictionMarketState) (pid : Nat)
    (cfg : GameConfig) :
    (update_game_config s pid cfg).state.markets = s.markets := by
  unfold update_game_config errOut
  repeat (first | rfl | split)

/-- The price floor survives the pair of outcome updates a trade makes:
first a shares-only update, then the price write with a price at or
above the base. -/
theorem floor_after_trade_updates (outs : List Outcome) (base : Amount)
    (oid : Nat) (f1 : Outcome → Outcome) (price : Amount)
    (hf1 : ∀ o, (f1 o).current_price = o.current_price)
    (hbase : ∀ o ∈ outs, base ≤ o.current_price) (hprice : base ≤ price) :
    ∀ o ∈ listUpdate (listUpdate outs oid f1) oid
      (fun o => { o with current_price := price }),
      base ≤ o.current_price := by
  intro o ho
  rcases listUpdate_mem _ _ _ _ ho with h2 | ⟨x, _, rfl⟩
  · rcases listUpdate_mem _ _ _ _ h2 with h3 | ⟨y, hy, rfl⟩
    · exact hbase o h3
    · rw [hf1]
      exact hbase y hy
  · exact hprice

/-- create_market preserves the price floor: the new market's outcomes
are all seeded at the base price. -/
theorem create_market_priceFloor (s : PredictionMarketState) (creator : Nat)
    (title desc : String) (mt : MarketType) (names : List String)
    (dur : Nat) (rm : ResolutionMethod) (t : Nat) (hPF : PriceFloor s) :
    PriceFloor (create_market s creator title desc mt names dur rm t).state := by
  unfold create_market errOut
  dsimp only
  rcases hcp : mapGet s.players creator with _ | player
  · exact hPF
  · dsimp only
    by_cases h1 : names.length < 2 ∨
        s.config.max_outcomes_per_market < names.length
    · rw [if_pos h1]
      exact hPF
    · rw [if_neg h1]
      by_cases h2 : dur < s.config.min_market_duration_seconds
      · rw [if_pos h2]
        exact hPF
      · rw [if_neg h2]
        by_cases h3 : player.token_balance < s.config.market_creation_cost
        · rw [if_pos h3]
          exact hPF
        · rw [if_neg h3]
          split
          · rename_i e heq
            refine priceFloor_insert s _ s.next_market_id _ hPF rfl ?_
            intro o ho
            rcases List.mem_map.mp ho with ⟨ni, _, rfl⟩
            exact le_refl _
          · rename_i s4 heq
            have h4 := distribute_market_creator_fee_markets _ _ _ _ _ heq
            refine priceFloor_insert s _ s.next_market_id _ hPF (h4.trans rfl) ?_
            intro o ho
            rcases List.mem_map.mp ho with ⟨ni, _, rfl⟩
            exact le_refl _

/-- trigger_market_resolution preserves the price floor: it only touches
status, winner and resolution time. -/
theorem trigger_market_resolution_priceFloor (s : PredictionMarketState)
    (mid t : Nat) (hPF : PriceFloor s) :
    PriceFloor (trigger_market_resolution s mid t).state := by
  unfold trigger_market_resolution errOut
  dsimp only
  rcases hm : mapGet s.markets mid with _ | m
  · exact hPF
  · dsimp only
    split
    · exact hPF
    · have hm2 : ∀ o ∈ m.outcomes, m.base_price ≤ o.current_price := hPF mid m hm
      by_cases hA : m.status = .Active
      · simp only [if_pos hA]
        have hPF1 : PriceFloor { s with markets :=
            (mapInsert s.markets mid { m with status := .Closed }) } := by
          refine priceFloor_insert s _ mid _ hPF rfl ?_
          intro o ho
          exact hm2 o ho
        split
        · exact hPF1
        · split
          · exact hPF1
          · unfold finishResolution
            dsimp only
            refine priceFloor_insert _ _ mid _ hPF1 rfl ?_
            intro o ho
            exact hm2 o ho
        · split
          · exact hPF1
          · unfold finishResolution
            dsimp only
            refine priceFloor_insert _ _ mid _ hPF1 rfl ?_
            intro o ho
            exact hm2 o ho
      · simp only [if_neg hA]
        split
        · exact hPF
        · split
          · exact hPF
          · unfold finishResolution
            dsimp only
            refine priceFloor_insert _ _ mid _ hPF rfl ?_
            intro o ho
            exact hm2 o ho
        · split
          · exact hPF
          · unfold finishResolution
            dsimp only
            refine priceFloor_insert _ _ mid _ hPF rfl ?_
            intro o ho
            exact hm2 o ho

/-- sell_shares preserves the price floor. -/
theorem sell_shares_priceFloor (s : PredictionMarketState)
    (pid mid oid : Nat) (shares mn : Amount) (t : Nat) (hPF : PriceFloor s) :
    PriceFloor (sell_shares s pid mid oid shares mn t).state := by
  unfold sell_shares errOut
  dsimp only
  rcases hm : mapGet s.markets mid with _ | m
  · exact hPF
  · dsimp only
    rcases hp : mapGet s.players pid with _ | player
    · exact hPF
    · dsimp only
      by_cases h1 : m.status ≠ .Active
      · rw [if_pos h1]
        exact hPF
      · rw [if_neg h1]
        rcases hpos : mapGet m.positions pid with _ | position
        · exact hPF
        · dsimp only
          by_cases h2 : (mapGet position.shares_by_outcome oid).getD 0 < shares
          · rw [if_pos h2]
            exact hPF
          · rw [if_neg h2]
            split
            · exact hPF
            · rename_i sv hsv
              by_cases h3 : sv < mn
              · rw [if_pos h3]
                exact hPF
              · rw [if_neg h3]
                split
                · exact hPF
                · rename_i price hprice
                  split
                  · rename_i e heq
                    have hple := calculate_current_price_ge _ _ _ hprice
                    refine priceFloor_insert s _ mid _ hPF rfl ?_
                    exact floor_after_trade_updates m.outcomes m.base_price oid
                      _ price (fun o => rfl) (hPF mid m hm) hple
                  · rename_i s4 heq
                    have hple := calculate_current_price_ge _ _ _ hprice
                    refine priceFloor_insert s _ mid _ hPF
                      ((distribute_trading_fees_markets _ _ _ _ heq).trans rfl) ?_
                    exact floor_after_trade_updates m.outcomes m.base_price oid
                      _ price (fun o => rfl) (hPF mid m hm) hple

/-- buy_shares preserves the price floor. -/
theorem buy_shares_priceFloor (s : PredictionMarketState)
    (pid mid oid : Nat) (amt mx : Amount) (t : Nat) (hPF : PriceFloor s) :
    PriceFloor (buy_shares s pid mid oid amt mx t).state := by
  unfold buy_shares errOut
  dsimp only
  rcases hm : mapGet s.markets mid with _ | m
  · exact hPF
  · dsimp only
    rcases hp : mapGet s.players pid with _ | player
    · exact hPF
    · dsimp only
      by_cases h1 : m.status ≠ .Active
      · rw [if_pos h1]
        exact hPF
      · rw [if_neg h1]
        by_cases h2 : m.end_time ≤ t
        · rw [if_pos h2]
          exact hPF
        · rw [if_neg h2]
          by_cases h3 : m.outcomes.length ≤ oid
          · rw [if_pos h3]
            exact hPF
          · rw [if_neg h3]
            by_cases h4 : player.token_balance < amt
            · rw [if_pos h4]
              exact hPF
            · rw [if_neg h4]
              split
              · exact hPF
              · rename_i shares hsh
                by_cases h5 : mx < amt
                · rw [if_pos h5]
                  exact hPF
                · rw [if_neg h5]
                  by_cases hNew : ¬ mid ∈ player.active_markets
                  · simp only [if_pos hNew]
                    split
                    · exact priceFloor_of_markets_eq s _
                        (add_experience_markets _ _ _) hPF
                    · rename_i price hprice
                      split
                      · rename_i e heq
                        have hple := calculate_current_price_ge _ _ _ hprice
                        refine priceFloor_insert _ _ mid _
                          (priceFloor_of_markets_eq s _
                            (add_experience_markets _ _ _) hPF) rfl ?_
                        exact floor_after_trade_updates m.outcomes m.base_price
                          oid _ price (fun o => rfl) (hPF mid m hm) hple
                      · rename_i s4 heq
                        have hple := calculate_current_price_ge _ _ _ hprice
                        refine priceFloor_insert _ _ mid _
                          (priceFloor_of_markets_eq s _
                            (add_experience_markets _ _ _) hPF)
                          ((distribute_trading_fees_markets _ _ _ _ heq).trans rfl) ?_
                        exact floor_after_trade_updates m.outcomes m.base_price
                          oid _ price (fun o => rfl) (hPF mid m hm) hple
                  · simp only [if_neg hNew]
                    split
                    · exact priceFloor_of_markets_eq s _
                        (add_experience_markets _ _ _) hPF
                    · rename_i price hprice
                      split
                      · rename_i e heq
                        have hple := calculate_current_price_ge _ _ _ hprice
                        refine priceFloor_insert _ _ mid _
                          (priceFloor_of_markets_eq s _
                            (add_experience_markets _ _ _) hPF) rfl ?_
                        exact floor_after_trade_updates m.outcomes m.base_price
                          oid _ price (fun o => rfl) (hPF mid m hm) hple
                      · rename_i s4 heq
                        have hple := calculate_current_price_ge _ _ _ hprice
                        refine priceFloor_insert _ _ mid _
                          (priceFloor_of_markets_eq s _
                            (add_experience_markets _ _ _) hPF)
                          ((distribute_trading_fees_markets _ _ _ _ heq).trans rfl) ?_
                        exact floor_after_trade_updates m.outcomes m.base_price
                          oid _ price (fun o => rfl) (hPF mid m hm) hple

/-- Every dispatched operation preserves the price floor. -/
theorem applyOperation_priceFloor (s : PredictionMarketState) (op : Operation)
    (pid t : Nat) (hPF : PriceFloor s) :
    PriceFloor (applyOperation s op pid t).state := by
  cases op with
  | RegisterPlayer dn =>
    exact priceFloor_of_markets_eq s _ (register_player_markets s pid dn t) hPF
  | UpdateProfile dn =>
    exact priceFloor_of_markets_eq s _ (update_player_profile_markets s pid dn) hPF
  | ClaimDailyReward =>
    exact priceFloor_of_markets_eq s _ (claim_daily_reward_markets s pid t) hPF
  | CreateMarket title description outcome_names duration_seconds resolution_method =>
    exact create_market_priceFloor s pid title description .QuickPrediction
      outcome_names duration_seconds resolution_method t hPF
  | BuyShares mid oid amt mx => exact buy_shares_priceFloor s pid mid oid amt mx t hPF
  | SellShares mid oid sh mn => exact sell_shares_priceFloor s pid mid oid sh mn t hPF
  | VoteOnOutcome mid oid =>
    exact priceFloor_of_markets_eq s _ (vote_on_outcome_markets s pid mid oid t) hPF
  | TriggerResolution mid => exact trigger_market_resolution_priceFloor s mid t hPF
  | ClaimWinnings mid =>
    exact priceFloor_of_markets_eq s _ (claim_winnings_markets s pid mid) hPF
  | CreateGuild name =>
    exact priceFloor_of_markets_eq s _ (create_guild_markets s pid name t) hPF
  | JoinGuild gid =>
    exact priceFloor_of_markets_eq s _ (join_guild_markets s pid gid) hPF
  | LeaveGuild =>
    exact priceFloor_of_markets_eq s _ (leave_guild_markets s pid) hPF
  | ContributeToGuild amt =>
    exact priceFloor_of_markets_eq s _ (contribute_to_guild_markets s pid amt) hPF
  | UpdateGameConfig cfg =>
    exact priceFloor_of_markets_eq s _ (update_game_config_markets s pid cfg) hPF

/-- Claim C9: in every reachable state, every outcome's current price is
at or above its market's base price — established at creation (both are
one token) and maintained by the floored price recomputation of every
buy and sell, while no other operation changes any price. -/
theorem c9_price_floor_invariant (config : GameConfig) (t0 : Nat)
    (s : PredictionMarketState) (h : Reachable config t0 s) : PriceFloor s := by
  induction h with
  | refl =>
    intro mid m hm
    have hm2 : mapGet ([] : List (Nat × Market)) mid = some m := hm
    simp [mapGet] at hm2
  | tail _hr hstep ih =>
    obtain ⟨op, pid, t, heq⟩ := hstep
    rw [← heq]
    exact applyOperation_priceFloor _ op pid t ih

/-- Witness for C9: the price floor holds in the concrete reachable state
sResolved (instantiation followed by registration, market creation, a
buy and a resolution). -/
theorem c9_price_floor_invariant_witness : PriceFloor sResolved :=
  c9_price_floor_invariant cfgT 0 sResolved
    (Relation.ReflTransGen.tail
      (Relation.ReflTransGen.tail
        (Relation.ReflTransGen.tail
          (Relation.ReflTransGen.tail Relation.ReflTransGen.refl
            ⟨.RegisterPlayer none, 1, 0, rfl⟩)
          ⟨.CreateMarket titleT descT [nameYes, nameNo] 60 .Automated, 1, 0, rfl⟩)
        ⟨.BuyShares 0 0 (fromTokens 100) (fromTokens 100), 1, 10, rfl⟩)
      ⟨.TriggerResolution 0, 1, 60000000, rfl⟩)

/- Error atomicity machinery (claim C5). -/

/-- The inserted key is contained. -/
theorem mapContains_mapInsert_self {α : Type} (l : List (Nat × α)) (k : Nat)
    (v : α) : mapContains (mapInsert l k v) k = true := by
  unfold mapContains
  rw [mapGet_mapInsert_self]
  rfl

/-- listUpdate preserves length. -/
theorem listUpdate_length {α : Type} (l : List α) (i : Nat) (f : α → α) :
    (listUpdate l i f).length = l.length := by
  unfold listUpdate
  split
  · exact List.length_set l i _
  · rfl

/-- calculate_current_price succeeds on any in-range outcome. -/
theorem calculate_current_price_ok (m : Market) (oid : Nat)
    (h : oid < m.outcomes.length) :
    ∃ p, calculate_current_price m oid = .ok p := by
  unfold calculate_current_price
  rw [if_neg (by omega)]
  dsimp only
  split
  · exact ⟨_, rfl⟩
  · exact ⟨_, rfl⟩

/-- check_achievements only ever adds the checked player to the map. -/
theorem check_achievements_contains (s : PredictionMarketState) (p : Player)
    (k : Nat) (hk : mapContains s.players k = true) :
    mapContains (check_achievements s p).1.players k = true := by
  unfold check_achievements
  dsimp only
  split
  · exact hk
  · unfold mapContains
    rw [mapGet_mapInsert]
    split
    · rfl
    · exact hk

/-- add_experience only ever adds the trained player to the map. -/
theorem add_experience_contains (s : PredictionMarketState) (p : Player)
    (xp k : Nat) (hk : mapContains s.players k = true) :
    mapContains (add_experience s p xp).1.players k = true := by
  unfold add_experience
  dsimp only
  split
  · exact check_achievements_contains _ _ _ hk
  · exact hk

/-- distribute_market_creator_fee succeeds whenever the creator is a
registered player. -/
theorem distribute_market_creator_fee_ok (s : PredictionMarketState)
    (c : Nat) (fee t : Nat) (hc : mapContains s.players c = true) :
    ∃ s4, distribute_market_creator_fee s c fee t = .ok s4 := by
  unfold distribute_market_creator_fee
  dsimp only
  by_cases hca : 0 < satDiv (satMul fee 2) (fromTokens 100)
  · rw [if_pos hca]
    rcases hcp : mapGet s.players c with _ | cp
    · unfold mapContains at hc
      rw [hcp] at hc
      cases hc
    · dsimp only
      exact ⟨_, rfl⟩
  · rw [if_neg hca]
    dsimp only
    exact ⟨_, rfl⟩

/-- distribute_trading_fees succeeds whenever the market exists and its
creator is a registered player. -/
theorem distribute_trading_fees_ok (s : PredictionMarketState)
    (mid : Nat) (amt : Amount) (mkt : Market)
    (hm : mapGet s.markets mid = some mkt)
    (hc : mapContains s.players mkt.creator = true) :
    ∃ s4, distribute_trading_fees s mid amt = .ok s4 := by
  unfold distribute_trading_fees
  rw [hm]
  dsimp only
  by_cases hfee : 0 < satDiv (satMul amt 1) (fromTokens 200)
  · rw [if_pos hfee]
    rcases hcp : mapGet s.players mkt.creator with _ | cp
    · unfold mapContains at hc
      rw [hcp] at hc
      cases hc
    · dsimp only
      exact ⟨_, rfl⟩
  · rw [if_neg hfee]
    exact ⟨_, rfl⟩

/-- A failing register_player writes nothing. -/
theorem register_player_err (s : PredictionMarketState) (pid : Nat)
    (dn : Option String) (t : Nat) (e : ContractError) :
    (register_player s pid dn t).result = .error e →
    (register_player s pid dn t).state = s := by
  unfold register_player errOut
  dsimp only
  repeat' split
  all_goals intro h
  all_goals first | rfl | exact Except.noConfusion h

/-- A failing update_player_profile writes nothing. -/
theorem update_player_profile_err (s : PredictionMarketState) (pid : Nat)
    (dn : Option String) (e : ContractError) :
    (update_player_profile s pid dn).result = .error e →
    (update_player_profile s pid dn).state = s := by
  unfold update_player_profile errOut
  dsimp only
  repeat' split
  all_goals intro h
  all_goals first | rfl | exact Except.noConfusion h

/-- A failing claim_daily_reward writes nothing. -/
theorem claim_daily_reward_err (s : PredictionMarketState) (pid t : Nat)
    (e : ContractError) :
    (claim_daily_reward s pid t).result = .error e →
    (claim_daily_reward s pid t).state = s := by
  unfold claim_daily_reward errOut
  dsimp only
  repeat' split
  all_goals intro h
  all_goals first | rfl | exact Except.noConfusion h

/-- A failing vote_on_outcome writes nothing. -/
theorem vote_on_outcome_err (s : PredictionMarketState) (pid mid oid t : Nat)
    (e : ContractError) :
    (vote_on_outcome s pid mid oid t).result = .error e →
    (vote_on_outcome s pid mid oid t).state = s := by
  unfold vote_on_outcome errOut
  dsimp only
  repeat' split
  all_goals intro h
  all_goals first | rfl | exact Except.noConfusion h

/-- A failing claim_winnings writes nothing. -/
theorem claim_winnings_err (s : PredictionMarketState) (pid mid : Nat)
    (e : ContractError) :
    (claim_winnings s pid mid).result = .error e →
    (claim_winnings s pid mid).state = s := by
  unfold claim_winnings errOut
  dsimp only
  repeat' split
  all_goals intro h
  all_goals first | rfl | exact Except.noConfusion h

/-- A failing create_guild writes nothing. -/
theorem create_guild_err (s : PredictionMarketState) (pid : Nat)
    (name : String) (t : Nat) (e : ContractError) :
    (create_guild s pid name t).result = .error e →
    (create_guild s pid name t).state = s := by
  unfold create_guild errOut
  dsimp only
  repeat' split
  all_goals intro h
  all_goals first | rfl | exact Except.noConfusion h

/-- A failing join_guild writes nothing. -/
theorem join_guild_err (s : PredictionMarketState) (pid gid : Nat)
    (e : ContractError) :
    (join_guild s pid gid).result = .error e →
    (join_guild s pid gid).state = s := by
  unfold join_guild errOut
  dsimp only
  repeat' split
  all_goals intro h
  all_goals first | rfl | exact Except.noConfusion h

/-- A failing leave_guild writes nothing. -/
theorem leave_guild_err (s : PredictionMarketState) (pid : Nat)
    (e : ContractError) :
    (leave_guild s pid).result = .error e →
    (leave_guild s pid).state = s := by
  unfold leave_guild errOut
  dsimp only
  repeat' split
  all_goals intro h
  all_goals first | rfl | exact Except.noConfusion h

/-- A failing contribute_to_guild writes nothing. -/
theorem contribute_to_guild_err (s : PredictionMarketState) (pid : Nat)
    (amt : Amount) (e : ContractError) :
    (contribute_to_guild s pid amt).result = .error e →
    (contribute_to_guild s pid amt).state = s := by
  unfold contribute_to_guild errOut
  dsimp only
  repeat' split
  all_goals intro h
  all_goals first | rfl | exact Except.noConfusion h

/-- A failing update_game_config writes nothing. -/
theorem update_game_config_err (s : PredictionMarketState) (pid : Nat)
    (cfg : GameConfig) (e : ContractError) :
    (update_game_config s pid cfg).result = .error e →
    (update_game_config s pid cfg).state = s := by
  unfold update_game_config errOut
  repeat' split
  all_goals intro h
  all_goals first | rfl | exact Except.noConfusion h

/-- With the creator registered, the creator-fee distribution cannot fail. -/
theorem distribute_market_creator_fee_ne_error (s : PredictionMarketState)
    (c fee t : Nat) (e : ContractError)
    (hc : mapContains s.players c = true) :
    distribute_market_creator_fee s c fee t ≠ .error e := by
  obtain ⟨s4, h4⟩ := distribute_market_creator_fee_ok s c fee t hc
  rw [h4]
  intro h
  exact Except.noConfusion h

/-- With the market present and its creator registered, the trading-fee
distribution cannot fail. -/
theorem distribute_trading_fees_ne_error (s : PredictionMarketState)
    (mid : Nat) (amt : Amount) (mkt : Market) (e : ContractError)
    (hm : mapGet s.markets mid = some mkt)
    (hc : mapContains s.players mkt.creator = true) :
    distribute_trading_fees s mid amt ≠ .error e := by
  obtain ⟨s4, h4⟩ := distribute_trading_fees_ok s mid amt mkt hm hc
  rw [h4]
  intro h
  exact Except.noConfusion h

/-- A failing create_market writes nothing: all its checks precede its
writes, and the fee distribution that follows them cannot fail because
the creator was just re-inserted. -/
theorem create_market_err (s : PredictionMarketState) (creator : Nat)
    (title desc : String) (mt : MarketType) (names : List String)
    (dur : Nat) (rm : ResolutionMethod) (t : Nat) (e : ContractError) :
    (create_market s creator title desc mt names dur rm t).result = .error e →
    (create_market s creator title desc mt names dur rm t).state = s := by
  unfold create_market errOut
  dsimp only
  rcases hcp : mapGet s.players creator with _ | player
  · intro _
    rfl
  · dsimp only
    by_cases h1 : names.length < 2 ∨
        s.config.max_outcomes_per_market < names.length
    · rw [if_pos h1]
      intro _
      rfl
    · rw [if_neg h1]
      by_cases h2 : dur < s.config.min_market_duration_seconds
      · rw [if_pos h2]
        intro _
        rfl
      · rw [if_neg h2]
        by_cases h3 : player.token_balance < s.config.market_creation_cost
        · rw [if_pos h3]
          intro _
          rfl
        · rw [if_neg h3]
          split
          · rename_i e2 heq
            intro _
            exfalso
            apply absurd heq
            apply distribute_market_creator_fee_ne_error
            apply mapContains_mapInsert_self
          · intro h
            exact Except.noConfusion h

/-- A failing trigger_market_resolution leaves the state unchanged except
that a market it found Active has been persisted as Closed. -/
theorem trigger_market_resolution_err (s : PredictionMarketState)
    (mid t : Nat) (e : ContractError) :
    (trigger_market_resolution s mid t).result = .error e →
    (trigger_market_resolution s mid t).state = s ∨
    ∃ m, mapGet s.markets mid = some m ∧ m.status = .Active ∧
      (trigger_market_resolution s mid t).state =
        { s with markets := (mapInsert s.markets mid
            { m with status := .Closed }) } := by
  unfold trigger_market_resolution errOut
  dsimp only
  rcases hm : mapGet s.markets mid with _ | m
  · intro _
    exact Or.inl rfl
  · dsimp only
    split
    · intro _
      exact Or.inl rfl
    · by_cases hA : m.status = .Active
      · simp only [if_pos hA]
        split
        · intro h
          exact Except.noConfusion h
        · split
          · intro _
            exact Or.inr ⟨m, rfl, hA, rfl⟩
          · intro h
            exact Except.noConfusion h
        · split
          · rename_i e2 heq
            intro _
            exfalso
            simp [resolve_automated] at heq
          · intro h
            exact Except.noConfusion h
      · simp only [if_neg hA]
        split
        · intro h
          exact Except.noConfusion h
        · split
          · intro _
            exact Or.inl rfl
          · intro h
            exact Except.noConfusion h
        · split
          · rename_i e2 heq
            intro _
            exfalso
            simp [resolve_automated] at heq
          · intro h
            exact Except.noConfusion h

/-- Price recomputation cannot fail on an in-range outcome id. -/
theorem calculate_current_price_ne_error (m : Market) (oid : Nat)
    (e : ContractError) (h : oid < m.outcomes.length) :
    calculate_current_price m oid ≠ .error e := by
  obtain ⟨p, hp⟩ := calculate_current_price_ok m oid h
  rw [hp]
  intro h2
  exact Except.noConfusion h2

/-- A failing buy_shares writes nothing, provided every market creator in
the starting state is a registered player (so the trading-fee
distribution that follows the writes cannot fail). -/
theorem buy_shares_err (s : PredictionMarketState) (pid mid oid : Nat)
    (amt mx : Amount) (t : Nat) (e : ContractError)
    (hCR : CreatorsRegistered s) :
    (buy_shares s pid mid oid amt mx t).result = .error e →
    (buy_shares s pid mid oid amt mx t).state = s := by
  unfold buy_shares errOut
  dsimp only
  rcases hm : mapGet s.markets mid with _ | m
  · intro _
    rfl
  · dsimp only
    rcases hp : mapGet s.players pid with _ | player
    · intro _
      rfl
    · dsimp only
      by_cases h1 : m.status ≠ .Active
      · rw [if_pos h1]
        intro _
        rfl
      · rw [if_neg h1]
        by_cases h2 : m.end_time ≤ t
        · rw [if_pos h2]
          intro _
          rfl
        · rw [if_neg h2]
          by_cases h3 : m.outcomes.length ≤ oid
          · rw [if_pos h3]
            intro _
            rfl
          · rw [if_neg h3]
            by_cases h4 : player.token_balance < amt
            · rw [if_pos h4]
              intro _
              rfl
            · rw [if_neg h4]
              split
              · intro _
                rfl
              · rename_i shares hsh
                by_cases h5 : mx < amt
                · rw [if_pos h5]
                  intro _
                  rfl
                · rw [if_neg h5]
                  by_cases hNew : ¬ mid ∈ player.active_markets
                  · simp only [if_pos hNew]
                    split
                    · rename_i e2 heq
                      intro _
                      exfalso
                      apply absurd heq
                      apply calculate_current_price_ne_error
                      show oid < (listUpdate m.outcomes oid (fun o =>
                        { o with total_shares := satAdd o.total_shares shares })).length
                      rw [listUpdate_length]
                      omega
                    · rename_i price hprice
                      split
                      · rename_i e2 heq
                        intro _
                        exfalso
                        apply absurd heq
                        apply distribute_trading_fees_ne_error
                        · apply mapGet_mapInsert_self
                        · apply mapContains_mapInsert_of
                          apply add_experience_contains
                          exact hCR mid m hm
                      · intro h
                        exact Except.noConfusion h
                  · simp only [if_neg hNew]
                    split
                    · rename_i e2 heq
                      intro _
                      exfalso
                      apply absurd heq
                      apply calculate_current_price_ne_error
                      show oid < (listUpdate m.outcomes oid (fun o =>
                        { o with total_shares := satAdd o.total_shares shares })).length
                      rw [listUpdate_length]
                      omega
                    · rename_i price hprice
                      split
                      · rename_i e2 heq
                        intro _
                        exfalso
                        apply absurd heq
                        apply distribute_trading_fees_ne_error
                        · apply mapGet_mapInsert_self
                        · apply mapContains_mapInsert_of
                          apply add_experience_contains
                          exact hCR mid m hm
                      · intro h
                        exact Except.noConfusion h

/-- A failing sell_shares writes nothing, under the same creator
registration proviso as buy_shares. -/
theorem sell_shares_err (s : PredictionMarketState) (pid mid oid : Nat)
    (sh mn : Amount) (t : Nat) (e : ContractError)
    (hCR : CreatorsRegistered s) :
    (sell_shares s pid mid oid sh mn t).result = .error e →
    (sell_shares s pid mid oid sh mn t).state = s := by
  unfold sell_shares errOut
  dsimp only
  rcases hm : mapGet s.markets mid with _ | m
  · intro _
    rfl
  · dsimp only
    rcases hp : mapGet s.players pid with _ | player
    · intro _
      rfl
    · dsimp only
      by_cases h1 : m.status ≠ .Active
      · rw [if_pos h1]
        intro _
        rfl
      · rw [if_neg h1]
        rcases hpos : mapGet m.positions pid with _ | position
        · intro _
          rfl
        · dsimp only
          by_cases h2 : (mapGet position.shares_by_outcome oid).getD 0 < sh
          · rw [if_pos h2]
            intro _
            rfl
          · rw [if_neg h2]
            split
            · intro _
              rfl
            · rename_i sell_value hsv
              by_cases h3 : sell_value < mn
              · rw [if_pos h3]
                intro _
                rfl
              · rw [if_neg h3]
                split
                · intro _
                  rfl
                · rename_i price hprice
                  split
                  · rename_i e2 heq
                    intro _
                    exfalso
                    apply absurd heq
                    apply distribute_trading_fees_ne_error
                    · apply mapGet_mapInsert_self
                    · apply mapContains_mapInsert_of
                      exact hCR mid m hm
                  · intro h
                    exact Except.noConfusion h

/-- An Active market resolved by oracle voting (for the C5 fixture). -/
def mktAOV : Market :=
  { mktW with resolution_method := .OracleVoting }

/-- A state holding player 1 and the Active OracleVoting market 0, with
no oracle-vote record. -/
def sC5 : PredictionMarketState :=
  { initial_state cfgT 0 with
    players := [(1, playerT 1)],
    markets := [(0, mktAOV)] }

/-- Claim C5, counterexample to the claim as stated: triggering the
Active OracleVoting market 0 after its end time fails with
OracleNotReady, yet the market's status has changed from Active to
Closed, because trigger_market_resolution persists the Closed status
before running the resolution strategy. -/
theorem c5_failed_trigger_mutates_market_status :
    (applyOperation sC5 (.TriggerResolution 0) 1 60000001).result =
      .error .OracleNotReady ∧
    (mapGet sC5.markets 0).map Market.status = some .Active ∧
    (mapGet (applyOperation sC5 (.TriggerResolution 0) 1 60000001).state.markets
      0).map Market.status = some .Closed := by
  refine ⟨by decide, by decide, by decide⟩

/-- Claim C5 (amended): if an operation returns an error then the state
is unchanged, except that a failing TriggerResolution on a market it
found Active leaves that market persisted as Closed.  The proviso that
every market creator is registered holds in all reachable states and
rules out a failure inside the fee-distribution helpers, which run after
the trade writes. -/
theorem c5_error_atomicity_amended (s : PredictionMarketState)
    (op : Operation) (pid t : Nat) (e : ContractError)
    (hCR : CreatorsRegistered s)
    (h : (applyOperation s op pid t).result = .error e) :
    (applyOperation s op pid t).state = s ∨
    ∃ mid m, op = .TriggerResolution mid ∧
      mapGet s.markets mid = some m ∧ m.status = .Active ∧
      (applyOperation s op pid t).state =
        { s with markets := (mapInsert s.markets mid
            { m with status := .Closed }) } := by
  cases op with
  | RegisterPlayer dn => exact Or.inl (register_player_err s pid dn t e h)
  | UpdateProfile dn => exact Or.inl (update_player_profile_err s pid dn e h)
  | ClaimDailyReward => exact Or.inl (claim_daily_reward_err s pid t e h)
  | CreateMarket title desc names dur rm =>
    exact Or.inl (create_market_err s pid title desc .QuickPrediction
      names dur rm t e h)
  | BuyShares mid oid amt mx =>
    exact Or.inl (buy_shares_err s pid mid oid amt mx t e hCR h)
  | SellShares mid oid sh mn =>
    exact Or.inl (sell_shares_err s pid mid oid sh mn t e hCR h)
  | VoteOnOutcome mid oid =>
    exact Or.inl (vote_on_outcome_err s pid mid oid t e h)
  | TriggerResolution mid =>
    rcases trigger_market_resolution_err s mid t e h with h1 | ⟨m, hm, hA, hst⟩
    · exact Or.inl h1
    · exact Or.inr ⟨mid, m, rfl, hm, hA, hst⟩
  | ClaimWinnings mid => exact Or.inl (claim_winnings_err s pid mid e h)
  | CreateGuild name => exact Or.inl (create_guild_err s pid name t e h)
  | JoinGuild gid => exact Or.inl (join_guild_err s pid gid e h)
  | LeaveGuild => exact Or.inl (leave_guild_err s pid e h)
  | ContributeToGuild amt => exact Or.inl (contribute_to_guild_err s pid amt e h)
  | UpdateGameConfig cfg => exact Or.inl (update_game_config_err s pid cfg e h)

/-- Witness for the amended C5 theorem at the concrete failing trigger of
sC5: the right disjunct is realized. -/
theorem c5_error_atomicity_amended_witness :
    (applyOperation sC5 (.TriggerResolution 0) 1 60000001).state = sC5 ∨
    ∃ mid m, (Operation.TriggerResolution 0 : Operation) =
        .TriggerResolution mid ∧
      mapGet sC5.markets mid = some m ∧ m.status = .Active ∧
      (applyOperation sC5 (.TriggerResolution 0) 1 60000001).state =
        { sC5 with markets := (mapInsert sC5.markets mid
            { m with status := .Closed }) } :=
  c5_error_atomicity_amended sC5 (.TriggerResolution 0) 1 60000001
    .OracleNotReady
    (by
      intro mid m hm
      by_cases h0 : mid = 0
      · subst h0
        have h3 : mapGet sC5.markets 0 = some mktAOV := rfl
        rw [h3] at hm
        rw [(Option.some.inj hm).symm]
        decide
      · exfalso
        have h3 : mapGet sC5.markets mid = none := by
          show mapGet [(0, mktAOV)] mid = none
          unfold mapGet
          rw [if_neg h0]
          rfl
        rw [h3] at hm
        cases hm)
    (by decide)
